import Mathlib

/-
  Verification development for the oops-lang interpreter
  (parser, class-table builder, evaluator).

  The Lean definitions below are shallow embeddings of the Rust source:
  - src/lex/mod.rs        : token data (tokens only; the lexer itself is out of scope)
  - src/ast/mod.rs        : AST node types and the recursive-descent parser
  - src/parse/parse_stream.rs : the parser's cursor primitives
  - src/prep/mod.rs       : class-table building (two passes plus linking)
  - src/interpret/mod.rs  : the tree-walking evaluator

  Modelling conventions:
  - Rust `HashMap<&str, T>` is modelled as `List (String × T)` holding the
    map's contents; key lookup/removal is order-insensitive, while the order
    of the list stands for the (arbitrary, seed-dependent) iteration order
    of the hash map.  Wherever observable behaviour depends on hash-map
    iteration order this is noted at the definition.
  - `Rc<T>` handles are modelled by value where the target is immutable at
    runtime; for the class-table linking pass, where the source calls
    `Rc::get_mut` (which panics unless the strong count is exactly 1),
    handles are modelled as indices into a store and the strong count is
    computed explicitly.
  - Rust panics (`unimplemented!`, failed `expect`, index out of bounds) are
    modelled as the distinguished outcome `Failure.panicked`; recursion
    through runtime data (method bodies fetched from the class table) is
    bounded by explicit fuel, exhaustion being `Failure.outOfFuel` (the
    source's behaviour there is stack exhaustion, an accepted fatal failure).
  - `i32` literals are modelled as `Int`: the language has no arithmetic
    primitives, so no evaluation step can leave the i32 range that lexing
    established.
-/

namespace Oops

/-- Byte-offset source span (src/main.rs, `struct Span`). Diagnostic only. -/
structure Span where
  from_ : Nat
  to_ : Nat
deriving DecidableEq, Repr

/-- Identifier with its span (src/ast/mod.rs, `struct Ident`). -/
structure Ident where
  name : String
  span : Span
deriving DecidableEq, Repr

/-- Capitalised class-name identifier (src/ast/mod.rs, `struct ClassName(pub Ident)`). -/
structure ClassName where
  ident : Ident
deriving DecidableEq, Repr

/-- A `#name` selector literal (src/ast/mod.rs, `struct Selector`). -/
structure Selector where
  ident : Ident
  span : Span
deriving DecidableEq, Repr

/-- A `#ClassName` literal (src/ast/mod.rs, `struct ClassNameSelector`). -/
structure ClassNameSelector where
  className : ClassName
  span : Span
deriving DecidableEq, Repr

/-- A block parameter `name:` (src/ast/mod.rs, `struct Parameter`). -/
structure Parameter where
  ident : Ident
  span : Span
deriving DecidableEq, Repr

mutual

/-- Expression nodes (src/ast/mod.rs, `enum Expr`).  `ClassNew` is inlined
as a constructor carrying the fields of `struct ClassNew`. -/
inductive Expr where
  | loc (ident : Ident)
  | ivar (ident : Ident) (span : Span)
  | messageSend (m : MessageSend)
  | classNew (className : ClassName) (args : List Argument) (span : Span)
  | selector (s : Selector)
  | classNameSelector (c : ClassNameSelector)
  | block (b : Block)
  | number (number : Int) (span : Span)
  | list (items : List Expr) (span : Span)
  | true_ (span : Span)
  | false_ (span : Span)
  | self_ (span : Span)
deriving Repr

/-- A message send `[receiver msg arg*]` (src/ast/mod.rs, `struct MessageSend`). -/
inductive MessageSend where
  | mk (receiver : Expr) (msg : Ident) (args : List Argument) (span : Span)
deriving Repr

/-- A keyword argument `label: expr` (src/ast/mod.rs, `struct Argument`). -/
inductive Argument where
  | mk (ident : Ident) (expr : Expr) (span : Span)
deriving Repr

/-- A block literal `|params| { stmts }` (src/ast/mod.rs, `struct Block`). -/
inductive Block where
  | mk (parameters : List Parameter) (body : List Stmt) (span : Span)
deriving Repr

/-- Statement nodes (src/ast/mod.rs, `enum Stmt`).  `defineClass` carries a
`superClass` clause: `src/prep/mod.rs:44` reads `node.super_class.class_name.0`,
and the spec's grammar has `super ":" ClassSelector`; the parser embedded in
the `Parser` namespace below mirrors `ast/mod.rs`, whose `DefineClass` node
lacks this field (see claim C3). -/
inductive Stmt where
  | letLocal (ident : Ident) (body : Expr) (span : Span)
  | letIVar (ident : Ident) (body : Expr) (span : Span)
  | messageSendStmt (expr : MessageSend) (span : Span)
  | ret (expr : Expr) (span : Span)
  | defineMethod (className : ClassName) (methodName : Selector) (block : Block) (span : Span)
  | defineClass (name : ClassNameSelector) (superClass : ClassNameSelector)
      (fields : List Selector) (span : Span)
deriving Repr

end

/-- An AST is a statement list (src/ast/mod.rs, `type Ast<'a> = Vec<Stmt<'a>>`). -/
abbrev Ast := List Stmt

def MessageSend.receiver : MessageSend → Expr
  | .mk r _ _ _ => r

def MessageSend.msg : MessageSend → Ident
  | .mk _ m _ _ => m

def MessageSend.args : MessageSend → List Argument
  | .mk _ _ a _ => a

def MessageSend.span : MessageSend → Span
  | .mk _ _ _ s => s

def Argument.ident : Argument → Ident
  | .mk i _ _ => i

def Argument.expr : Argument → Expr
  | .mk _ e _ => e

def Argument.span : Argument → Span
  | .mk _ _ s => s

def Block.parameters : Block → List Parameter
  | .mk p _ _ => p

def Block.body : Block → List Stmt
  | .mk _ b _ => b

/-- Error taxonomy (src/error.rs, `enum Error`).  Lex and IO errors are out
of scope; `parseError` lives in the `Parser` namespace. -/
inductive Error where
  | classNotDefined (cls : String) (span : Span)
  | classAlreadyDefined (cls : String) (firstSpan secondSpan : Span)
  | methodAlreadyDefined (cls method : String) (firstSpan secondSpan : Span)
  | undefinedLocal (name : String) (span : Span)
  | missingArgument (name : String) (span : Span)
  | unexpectedArgument (name : String) (span : Span)
  | noSelf (span : Span)
  | messageSentToNonInstance (span : Span)
  | undefinedMethod (cls method : String) (span : Span)
  | ivarAccessedOutsideMethod (name : String) (span : Span)
  | undefinedIVar (name : String) (span : Span)
deriving DecidableEq, Repr

/-- Evaluation outcome channel: `err` is the source's `Err(Error)` path,
`panicked` models a Rust panic (`unimplemented!`, failed `expect`), and
`outOfFuel` bounds recursion through method bodies (host stack exhaustion
in the source). -/
inductive Failure where
  | err (e : Error)
  | panicked (msg : String)
  | outOfFuel
deriving DecidableEq, Repr

/-- A class field descriptor (src/prep/mod.rs, `struct Field`). -/
structure Field where
  name : Ident
deriving DecidableEq, Repr

/-- A method descriptor (src/prep/mod.rs, `struct Method`). -/
structure Method where
  name : Ident
  parameters : List Parameter
  body : List Stmt
  span : Span
deriving Repr

/-- A linked class descriptor as the evaluator consumes it
(src/prep/mod.rs, `struct Class`): after the linking pass the descriptor is
immutable, so the `Rc<Class>` superclass handle is modelled by value. -/
inductive Class where
  | mk (name : Ident) (superClassName : Ident) (superClass : Option Class)
      (fields : List (String × Field)) (methods : List (String × Method)) (span : Span)
deriving Repr

def Class.name : Class → Ident
  | .mk n _ _ _ _ _ => n

def Class.superClass : Class → Option Class
  | .mk _ _ s _ _ _ => s

def Class.fields : Class → List (String × Field)
  | .mk _ _ _ f _ _ => f

def Class.methods : Class → List (String × Method)
  | .mk _ _ _ _ m _ => m

mutual

/-- Runtime values (src/interpret/mod.rs, `enum Value`).  `List` and
`Instance` are behind `Rc` in the source; lists are never mutated and
instance tables are only ever mutated by `visit_let_ivar`, which is
`unimplemented!`, so modelling the handles by value is faithful. -/
inductive Value where
  | number (n : Int)
  | true_
  | false_
  | nil
  | list (items : List Value)
  | instance_ (i : Instance)
deriving Repr

/-- An instance record (src/interpret/mod.rs, `struct Instance`). -/
inductive Instance where
  | mk (cls : Class) (ivars : List (String × Value))
deriving Repr

end

def Instance.cls : Instance → Class
  | .mk c _ => c

def Instance.ivars : Instance → List (String × Value)
  | .mk _ i => i

/-- Association-list lookup, modelling `HashMap::get`. -/
def hmGet {α : Type} : List (String × α) → String → Option α
  | [], _ => none
  | (k, v) :: rest, key => if k = key then some v else hmGet rest key

/-- Association-list insert with overwrite, modelling `HashMap::insert`. -/
def hmInsert {α : Type} : List (String × α) → String → α → List (String × α)
  | [], key, v => [(key, v)]
  | (k, w) :: rest, key, v =>
    if k = key then (key, v) :: rest else (k, w) :: hmInsert rest key v

/-- Association-list removal returning the removed value, modelling
`HashMap::remove`. -/
def hmRemove {α : Type} : List (String × α) → String → Option (α × List (String × α))
  | [], _ => none
  | (k, v) :: rest, key =>
    if k = key then some (v, rest)
    else
      match hmRemove rest key with
      | none => none
      | some (x, l) => some (x, (k, v) :: l)

/-- Method resolution walking the superclass chain
(src/prep/mod.rs:230-252, `Class::get_method_named`).  When the walk falls
off the top, the error names the class at which the walk ended — the source
has `// TODO: Change method name of returned error / Otherwise it'll always
be "Object"` right above this return. -/
def Class.getMethodNamed : Class → String → Span → Except Failure Method
  | .mk name _ superClass _ methods _, methodName, callSite =>
    match hmGet methods methodName with
    | some m => .ok m
    | none =>
      match superClass with
      | some sup => sup.getMethodNamed methodName callSite
      | none => .error (.err (.undefinedMethod name.name methodName callSite))

/-- Evaluator state (src/interpret/mod.rs, `struct Interpreter`): shared
read-only class table, flat local-variable map, optional self, and the
pending-return flag. -/
structure Interpreter where
  classes : List (String × Class)
  locals : List (String × Value)
  self_ : Option Value
  returnValue : Option Value

/-- Fresh activation frame for a method call
(src/interpret/mod.rs:39-50, `Interpreter::copy_for_method_call`). -/
def copyForMethodCall (interp : Interpreter) (newSelf : Value)
    (locals : List (String × Value)) : Interpreter :=
  { classes := interp.classes, locals := locals,
    self_ := some newSelf, returnValue := none }

/-- Class lookup by name (src/interpret/mod.rs:52-61, `Interpreter::lookup_class`). -/
def lookupClass (interp : Interpreter) (name : String) (callSite : Span) :
    Except Failure Class :=
  match hmGet interp.classes name with
  | some c => .ok c
  | none => .error (.err (.classNotDefined name callSite))

/-- The pure tail of `eval_arguments` (src/interpret/mod.rs:238-253): for
each required name in order, remove the matching pre-evaluated argument or
fail with missing-argument at the call site; afterwards any remaining
argument fails with unexpected-argument at its own span (the first one in
the residual map's iteration order). -/
def bindArguments : List String → Span → List (String × Value × Span) →
    List (String × Value) → Except Failure (List (String × Value))
  | [], _, argValues, ivars =>
    match argValues with
    | [] => .ok ivars
    | (name, _, span) :: _ => .error (.err (.unexpectedArgument name span))
  | param :: rest, callSite, argValues, ivars =>
    match hmRemove argValues param with
    | none => .error (.err (.missingArgument param callSite))
    | some (vs, argValues') =>
      bindArguments rest callSite argValues' (hmInsert ivars param vs.1)

mutual

/-- Expression evaluation (src/interpret/mod.rs, `impl Eval for Expr` and the
per-node `Eval` impls).  Takes the interpreter by value and returns only a
value, mirroring the source's `fn eval(&self, interpreter: &Interpreter)`:
expression evaluation cannot mutate the current frame.  The `selector` and
`classNameSelector` arms are absent from the source's match (it is
non-exhaustive over `enum Expr`); they are mapped to a panic outcome. -/
def evalExpr : Nat → Interpreter → Expr → Except Failure Value
  | _, interp, .loc ident =>
    match hmGet interp.locals ident.name with
    | some v => .ok v
    | none => .error (.err (.undefinedLocal ident.name ident.span))
  | _, _, .number n _ => .ok (.number n)
  | fuel, interp, .list items _ => do
    let vs ← evalList fuel interp items
    .ok (.list vs)
  | _, _, .true_ _ => .ok .true_
  | _, _, .false_ _ => .ok .false_
  | _, interp, .self_ sp =>
    match interp.self_ with
    | some v => .ok v
    | none => .error (.err (.noSelf sp))
  | fuel, interp, .classNew className args _ => do
    -- src/interpret/mod.rs:211-223, `impl Eval for ClassNew`
    let callSite := className.ident.span
    let cls ← lookupClass interp className.ident.name callSite
    let parameters := cls.fields.map Prod.fst
    let argVals ← evalArgs fuel interp [] args
    let ivars ← bindArguments parameters callSite argVals []
    .ok (.instance_ (.mk cls ivars))
  | fuel, interp, .messageSend m => evalMessageSend fuel interp m
  | _, interp, .ivar ident span =>
    -- src/interpret/mod.rs:286-307, `impl Eval for IVar`
    match interp.self_ with
    | none => .error (.err (.ivarAccessedOutsideMethod ident.name span))
    | some v =>
      match v with
      | .instance_ inst =>
        match hmGet inst.ivars ident.name with
        | some w => .ok w
        | none => .error (.err (.undefinedIVar ident.name span))
      | _ => .error (.err (.messageSentToNonInstance span))
  | _, _, .block _ => .error (.panicked "not implemented: eval Block")
  | _, _, .selector _ =>
    .error (.panicked "non-exhaustive match: Expr::Selector has no Eval arm")
  | _, _, .classNameSelector _ =>
    .error (.panicked "non-exhaustive match: Expr::ClassNameSelector has no Eval arm")

termination_by fuel _ e => (fuel, sizeOf e)
decreasing_by all_goals (simp_wf; omega)

/-- Left-to-right evaluation of list items (src/interpret/mod.rs:173-187,
`impl Eval for List`). -/
def evalList : Nat → Interpreter → List Expr → Except Failure (List Value)
  | _, _, [] => .ok []
  | fuel, interp, e :: rest => do
    let v ← evalExpr fuel interp e
    let vs ← evalList fuel interp rest
    .ok (v :: vs)

termination_by fuel _ items => (fuel, sizeOf items)
decreasing_by all_goals (simp_wf; omega)

/-- The first loop of `eval_arguments` (src/interpret/mod.rs:232-236):
evaluate every provided argument in order and index the results by label
(`HashMap::insert`, so a duplicate label overwrites). -/
def evalArgs : Nat → Interpreter → List (String × Value × Span) → List Argument →
    Except Failure (List (String × Value × Span))
  | _, _, acc, [] => .ok acc
  | fuel, interp, acc, .mk ident expr span :: rest => do
    let v ← evalExpr fuel interp expr
    evalArgs fuel interp (hmInsert acc ident.name (v, span)) rest

termination_by fuel _ _ args => (fuel, sizeOf args)
decreasing_by all_goals (simp_wf; omega)

/-- Message-send evaluation (src/interpret/mod.rs:256-284,
`impl Eval for MessageSend`): evaluate the receiver, require an instance,
resolve the method up the superclass chain, bind arguments against the
declared parameter names, run the body in a fresh frame, and produce the
frame's pending return value or `Nil`. -/
def evalMessageSend : Nat → Interpreter → MessageSend → Except Failure Value
  | fuel, interp, .mk receiver msg args span => do
    let r ← evalExpr fuel interp receiver
    match r with
    | .instance_ inst => do
      let method ← inst.cls.getMethodNamed msg.name span
      let newSelf := Value.instance_ inst
      let parameters := method.parameters.map (fun p => p.ident.name)
      let argVals ← evalArgs fuel interp [] args
      let newLocals ← bindArguments parameters span argVals []
      match fuel with
      | 0 => .error .outOfFuel
      | fuel' + 1 => do
        let mi ← execStmts fuel' (copyForMethodCall interp newSelf newLocals) method.body
        .ok (mi.returnValue.getD Value.nil)
    | _ => .error (.err (.messageSentToNonInstance span))

termination_by fuel _ m => (fuel, sizeOf m)
decreasing_by all_goals (simp_wf; omega)

/-- One statement step of the evaluator's visitor
(src/interpret/mod.rs:64-99, `impl Visitor for Interpreter`; dispatch per
src/ast/visitor.rs).  The pending-return flag is checked before the
`LetLocal`, `LetIVar` and `MessageSendStmt` bodies; `visit_return`
(lines 94-98) has no such check.  `DefineMethod`/`DefineClass` fall to the
visitor's default no-op handlers.  `visit_let_ivar` is
`unimplemented!("TODO: visit_let_ivar")`. -/
def visitStmt : Nat → Interpreter → Stmt → Except Failure Interpreter
  | fuel, interp, .letLocal ident body _ =>
    if interp.returnValue.isSome then .ok interp
    else do
      let v ← evalExpr fuel interp body
      .ok { interp with locals := hmInsert interp.locals ident.name v }
  | _, interp, .letIVar _ _ _ =>
    if interp.returnValue.isSome then .ok interp
    else .error (.panicked "not implemented: TODO: visit_let_ivar")
  | fuel, interp, .messageSendStmt m _ =>
    if interp.returnValue.isSome then .ok interp
    else do
      let _ ← evalMessageSend fuel interp m
      .ok interp
  | fuel, interp, .ret expr _ => do
    let v ← evalExpr fuel interp expr
    .ok { interp with returnValue := some v }
  | _, interp, .defineMethod _ _ _ _ => .ok interp
  | _, interp, .defineClass _ _ _ _ => .ok interp

termination_by fuel _ s => (fuel, sizeOf s)
decreasing_by all_goals (simp_wf; omega)

/-- Statement-sequence execution (src/ast/visitor.rs `visit_ast` as driven by
`interpret` and by `MessageSend::eval` on a method body): statements run in
order, threading the interpreter state. -/
def execStmts : Nat → Interpreter → List Stmt → Except Failure Interpreter
  | _, interp, [] => .ok interp
  | fuel, interp, s :: rest => do
    let interp' ← visitStmt fuel interp s
    execStmts fuel interp' rest
termination_by fuel _ stmts => (fuel, sizeOf stmts)
decreasing_by all_goals (simp_wf; omega)

end

namespace Parser

/-- Tokens crossing the lexer boundary (src/lex/mod.rs, `enum Token`). -/
inductive Token where
  | let_ (span : Span)
  | self_ (span : Span)
  | name (name : String) (span : Span)
  | className (name : String) (span : Span)
  | eq (span : Span)
  | digit (digit : Int) (span : Span)
  | semicolon (span : Span)
  | oBracket (span : Span)
  | cBracket (span : Span)
  | oBrace (span : Span)
  | cBrace (span : Span)
  | oParen (span : Span)
  | cParen (span : Span)
  | colon (span : Span)
  | at_ (span : Span)
  | hash (span : Span)
  | comma (span : Span)
  | pipe (span : Span)
  | true_ (span : Span)
  | false_ (span : Span)
  | ret (span : Span)
deriving DecidableEq, Repr

/-- Token display form (src/lex/mod.rs `impl Display`), used in the
expected/got parse error message. -/
def display : Token → String
  | .let_ _ => "let"
  | .self_ _ => "self"
  | .name n _ => n
  | .className n _ => n
  | .eq _ => "="
  | .digit d _ => toString d
  | .semicolon _ => ";"
  | .oBracket _ => "["
  | .cBracket _ => "]"
  | .oBrace _ => "\x7b"
  | .cBrace _ => "\x7d"
  | .oParen _ => "("
  | .cParen _ => ")"
  | .colon _ => ":"
  | .at_ _ => "@"
  | .hash _ => "#"
  | .comma _ => ","
  | .pipe _ => "|"
  | .true_ _ => "true"
  | .false_ _ => "false"
  | .ret _ => "return"

/-- Parse outcome channel: `fail` is `ParseError::Error` (recoverable by a
caller's backtrack), `panicked` models the unchecked
`self.tokens[self.current_position]` index in `ParseStream::parse_token` /
`try_parse_token` (src/parse/parse_stream.rs:19,35) aborting the process,
and `fuelOut` bounds recursion depth (host stack in the source). -/
inductive PFail where
  | fail (msg : String)
  | panicked (msg : String)
  | fuelOut
deriving DecidableEq, Repr

/-- Embeds `ParseStream::parse_token::<T>` (src/parse/parse_stream.rs:18-30):
reads `self.tokens[self.current_position]` (panicking when the cursor is at
or past the end), advances, and matches the token kind via `T::from_token`,
failing with an expected/got message on a mismatch.  The advanced cursor is
only observable through a caller's backtrack snapshot, so failures simply
discard it. -/
def parseToken {α : Type} (tk : List Token) (pos : Nat)
    (fromToken : Token → Option α) (debugName : String) : Except PFail (α × Nat) :=
  if h : pos < tk.length then
    match fromToken (tk.get ⟨pos, h⟩) with
    | some a => .ok (a, pos + 1)
    | none =>
      .error (.fail ("Expected \x27" ++ debugName ++ "\x27 but got \x27" ++
        display (tk.get ⟨pos, h⟩) ++ "\x27"))
  else .error (.panicked "index out of bounds: the len is the number of tokens but the index is the current position")

/-- Embeds `ParseStream::try_parse_node` / `try_parse_token`
(src/parse/parse_stream.rs:32-60): snapshot the cursor, attempt the parse;
a recoverable failure restores the snapshot (the caller keeps `pos`), a
panic propagates. -/
def tryP {α : Type} : Except PFail (α × Nat) → Except PFail (Option (α × Nat))
  | .ok x => .ok (some x)
  | .error (.fail _) => .ok none
  | .error e => .error e

mutual

/-- The parser's own AST (src/ast/mod.rs).  This mirrors the node types the
parser actually produces; in particular `defineClass` below has `name` and
`fields` clauses only — `struct DefineClass` (src/ast/mod.rs:95-99) has no
superclass field and `DefineClass::parse` (lines 360-387) consumes no
`super:` clause, although src/prep/mod.rs:44 reads `node.super_class`. -/
inductive PExpr where
  | loc (ident : Ident)
  | ivar (ident : Ident) (span : Span)
  | messageSend (m : PMessageSend)
  | classNew (className : ClassName) (args : List PArgument) (span : Span)
  | selector (s : Selector)
  | classNameSelector (c : ClassNameSelector)
  | block (b : PBlock)
  | number (number : Int) (span : Span)
  | list (items : List PExpr) (span : Span)
  | true_ (span : Span)
  | false_ (span : Span)
  | self_ (span : Span)
deriving Repr

inductive PMessageSend where
  | mk (receiver : PExpr) (msg : Ident) (args : List PArgument) (span : Span)
deriving Repr

inductive PArgument where
  | mk (ident : Ident) (expr : PExpr) (span : Span)
deriving Repr

inductive PBlock where
  | mk (parameters : List Parameter) (body : List PStmt) (span : Span)
deriving Repr

inductive PStmt where
  | letLocal (ident : Ident) (body : PExpr) (span : Span)
  | letIVar (ident : Ident) (body : PExpr) (span : Span)
  | messageSendStmt (expr : PMessageSend) (span : Span)
  | ret (expr : PExpr) (span : Span)
  | defineMethod (className : ClassName) (methodName : Selector) (block : PBlock) (span : Span)
  | defineClass (name : ClassNameSelector) (fields : List Selector) (span : Span)
deriving Repr

end

def PExpr.span : PExpr → Span
  | .loc ident => ident.span
  | .ivar _ s => s
  | .messageSend (.mk _ _ _ s) => s
  | .classNew _ _ s => s
  | .selector s => s.span
  | .classNameSelector c => c.span
  | .block (.mk _ _ s) => s
  | .number _ s => s
  | .list _ s => s
  | .true_ s => s
  | .false_ s => s
  | .self_ s => s

def exLet : Token → Option Span
  | .let_ s => some s
  | _ => none

def exSelf : Token → Option Span
  | .self_ s => some s
  | _ => none

def exName : Token → Option (String × Span)
  | .name n s => some (n, s)
  | _ => none

def exClassName : Token → Option (String × Span)
  | .className n s => some (n, s)
  | _ => none

def exEq : Token → Option Span
  | .eq s => some s
  | _ => none

def exDigit : Token → Option (Int × Span)
  | .digit d s => some (d, s)
  | _ => none

def exSemicolon : Token → Option Span
  | .semicolon s => some s
  | _ => none

def exOBracket : Token → Option Span
  | .oBracket s => some s
  | _ => none

def exCBracket : Token → Option Span
  | .cBracket s => some s
  | _ => none

def exOBrace : Token → Option Span
  | .oBrace s => some s
  | _ => none

def exCBrace : Token → Option Span
  | .cBrace s => some s
  | _ => none

def exColon : Token → Option Span
  | .colon s => some s
  | _ => none

def exAt : Token → Option Span
  | .at_ s => some s
  | _ => none

def exHash : Token → Option Span
  | .hash s => some s
  | _ => none

def exComma : Token → Option Span
  | .comma s => some s
  | _ => none

def exPipe : Token → Option Span
  | .pipe s => some s
  | _ => none

def exTrue : Token → Option Span
  | .true_ s => some s
  | _ => none

def exFalse : Token → Option Span
  | .false_ s => some s
  | _ => none

def exReturn : Token → Option Span
  | .ret s => some s
  | _ => none

/-- Embeds `Ident::parse` (src/ast/mod.rs:389-395). -/
def parseIdent (tk : List Token) (pos : Nat) : Except PFail (Ident × Nat) := do
  let ((n, s), pos') ← parseToken tk pos exName "name"
  .ok (({ name := n, span := s } : Ident), pos')

/-- Embeds `ClassName::parse` (src/ast/mod.rs:429-434). -/
def parseClassName (tk : List Token) (pos : Nat) : Except PFail (ClassName × Nat) := do
  let ((n, s), pos') ← parseToken tk pos exClassName "class name"
  .ok (ClassName.mk { name := n, span := s }, pos')

/-- Embeds `ParseStream::parse_specific_ident` (src/parse/parse_stream.rs:62-73). -/
def parseSpecificIdent (tk : List Token) (pos : Nat) (name : String) : Except PFail (Ident × Nat) := do
  let (ident, pos') ← parseIdent tk pos
  if ident.name = name then .ok (ident, pos')
  else .error (.fail ("Expected class named \x27" ++ name ++ "\x27 but got \x27" ++ ident.name ++ "\x27"))

/-- Embeds `ParseStream::parse_specific_class_name` (src/parse/parse_stream.rs:75-86). -/
def parseSpecificClassName (tk : List Token) (pos : Nat) (name : String) : Except PFail (ClassName × Nat) := do
  let (cn, pos') ← parseClassName tk pos
  if cn.ident.name = name then .ok (cn, pos')
  else .error (.fail ("Expected class named \x27" ++ name ++ "\x27 but got \x27" ++ cn.ident.name ++ "\x27"))

/-- Embeds `Selector::parse` (src/ast/mod.rs:456-467). -/
def parseSelector (tk : List Token) (pos : Nat) : Except PFail (Selector × Nat) := do
  let (start, pos₁) ← parseToken tk pos exHash "#"
  let (ident, pos₂) ← parseIdent tk pos₁
  .ok (({ ident := ident, span := ⟨start.from_, ident.span.to_⟩ } : Selector), pos₂)

/-- Embeds `ClassNameSelector::parse` (src/ast/mod.rs:469-480). -/
def parseClassNameSelector (tk : List Token) (pos : Nat) : Except PFail (ClassNameSelector × Nat) := do
  let (start, pos₁) ← parseToken tk pos exHash "#"
  let (cn, pos₂) ← parseClassName tk pos₁
  .ok (({ className := cn, span := ⟨start.from_, cn.ident.span.to_⟩ } : ClassNameSelector), pos₂)

/-- Embeds `Parameter::parse` (src/ast/mod.rs:570-582). -/
def parseParameter (tk : List Token) (pos : Nat) : Except PFail (Parameter × Nat) := do
  let (ident, pos₁) ← parseIdent tk pos
  let (endSpan, pos₂) ← parseToken tk pos₁ exColon ":"
  .ok (({ ident := ident, span := ⟨ident.span.from_, endSpan.to_⟩ } : Parameter), pos₂)

/-- Embeds `parse_many::<Selector>` as used by `DefineClass::parse`
(src/parse/parse_stream.rs:88-102): stop at end-of-stream or on the first
item that fails to parse, backtracking over it. -/
def parseManySelector : Nat → List Token → Nat → Except PFail (List Selector × Nat)
  | 0, _, _ => .error .fuelOut
  | fuel + 1, tk, pos =>
    if pos ≥ tk.length then .ok ([], pos)
    else do
      match ← tryP (parseSelector tk pos) with
      | none => .ok ([], pos)
      | some (s, pos') => do
        let (rest, pos'') ← parseManySelector fuel tk pos'
        .ok (s :: rest, pos'')

/-- Embeds `parse_many::<Parameter>` as used by `Block::parse`. -/
def parseManyParameter : Nat → List Token → Nat → Except PFail (List Parameter × Nat)
  | 0, _, _ => .error .fuelOut
  | fuel + 1, tk, pos =>
    if pos ≥ tk.length then .ok ([], pos)
    else do
      match ← tryP (parseParameter tk pos) with
      | none => .ok ([], pos)
      | some (p, pos') => do
        let (rest, pos'') ← parseManyParameter fuel tk pos'
        .ok (p :: rest, pos'')

mutual

/-- Embeds `Stmt::parse` (src/ast/mod.rs:260-271): ordered alternation with full
backtracking — `DefineClass`, `DefineMethod`, `LetLocal`, `LetIVar`,
`MessageSendStmt`, `Return`; exhausting all alternatives fails. -/
def parseStmt : Nat → List Token → Nat → Except PFail (PStmt × Nat)
  | 0, _, _ => .error .fuelOut
  | fuel + 1, tk, pos => do
    match ← tryP (parseDefineClass fuel tk pos) with
    | some (d, pos') => .ok (d, pos')
    | none =>
    match ← tryP (parseDefineMethod fuel tk pos) with
    | some (d, pos') => .ok (d, pos')
    | none =>
    match ← tryP (parseLetLocal fuel tk pos) with
    | some (d, pos') => .ok (d, pos')
    | none =>
    match ← tryP (parseLetIVar fuel tk pos) with
    | some (d, pos') => .ok (d, pos')
    | none =>
    match ← tryP (parseMessageSendStmt fuel tk pos) with
    | some (d, pos') => .ok (d, pos')
    | none =>
    match ← tryP (parseReturn fuel tk pos) with
    | some (d, pos') => .ok (d, pos')
    | none => .error (.fail "stmt parse failed")

/-- Embeds `LetLocal::parse` (src/ast/mod.rs:273-287). -/
def parseLetLocal : Nat → List Token → Nat → Except PFail (PStmt × Nat)
  | 0, _, _ => .error .fuelOut
  | fuel + 1, tk, pos => do
    let (start, pos₁) ← parseToken tk pos exLet "let"
    let (ident, pos₂) ← parseIdent tk pos₁
    let (_, pos₃) ← parseToken tk pos₂ exEq "="
    let (body, pos₄) ← parseExpr fuel tk pos₃
    let (endSpan, pos₅) ← parseToken tk pos₄ exSemicolon ";"
    .ok (.letLocal ident body ⟨start.from_, endSpan.to_⟩, pos₅)

/-- Embeds `LetIVar::parse` (src/ast/mod.rs:289-304). -/
def parseLetIVar : Nat → List Token → Nat → Except PFail (PStmt × Nat)
  | 0, _, _ => .error .fuelOut
  | fuel + 1, tk, pos => do
    let (start, pos₁) ← parseToken tk pos exLet "let"
    let (_, pos₂) ← parseToken tk pos₁ exAt "@"
    let (ident, pos₃) ← parseIdent tk pos₂
    let (_, pos₄) ← parseToken tk pos₃ exEq "="
    let (body, pos₅) ← parseExpr fuel tk pos₄
    let (endSpan, pos₆) ← parseToken tk pos₅ exSemicolon ";"
    .ok (.letIVar ident body ⟨start.from_, endSpan.to_⟩, pos₆)

/-- Embeds `Return::parse` (src/ast/mod.rs:306-317). -/
def parseReturn : Nat → List Token → Nat → Except PFail (PStmt × Nat)
  | 0, _, _ => .error .fuelOut
  | fuel + 1, tk, pos => do
    let (start, pos₁) ← parseToken tk pos exReturn "return"
    let (expr, pos₂) ← parseExpr fuel tk pos₁
    let (endSpan, pos₃) ← parseToken tk pos₂ exSemicolon ";"
    .ok (.ret expr ⟨start.from_, endSpan.to_⟩, pos₃)

/-- Embeds `MessageSendStmt::parse` (src/ast/mod.rs:319-330). -/
def parseMessageSendStmt : Nat → List Token → Nat → Except PFail (PStmt × Nat)
  | 0, _, _ => .error .fuelOut
  | fuel + 1, tk, pos => do
    let (expr, pos₁) ← parseMessageSend fuel tk pos
    let (endSpan, pos₂) ← parseToken tk pos₁ exSemicolon ";"
    match expr with
    | .mk r m a s => .ok (.messageSendStmt (.mk r m a s) ⟨s.from_, endSpan.to_⟩, pos₂)

/-- Embeds `DefineMethod::parse` (src/ast/mod.rs:332-358). -/
def parseDefineMethod : Nat → List Token → Nat → Except PFail (PStmt × Nat)
  | 0, _, _ => .error .fuelOut
  | fuel + 1, tk, pos => do
    let (start, pos₁) ← parseToken tk pos exOBracket "\\["
    let (className, pos₂) ← parseClassName tk pos₁
    let (_, pos₃) ← parseSpecificIdent tk pos₂ "def"
    let (_, pos₄) ← parseToken tk pos₃ exColon ":"
    let (methodName, pos₅) ← parseSelector tk pos₄
    let (_, pos₆) ← parseSpecificIdent tk pos₅ "do"
    let (_, pos₇) ← parseToken tk pos₆ exColon ":"
    let (block, pos₈) ← parseBlock fuel tk pos₇
    let (_, pos₉) ← parseToken tk pos₈ exCBracket "\\]"
    let (endSpan, pos₁₀) ← parseToken tk pos₉ exSemicolon ";"
    .ok (.defineMethod className methodName block ⟨start.from_, endSpan.to_⟩, pos₁₀)

/-- Embeds `DefineClass::parse` (src/ast/mod.rs:360-387): consumes
`[ Class subclass name : ClassNameSelector fields : [ Selector* ] ] ;` —
there is no `super:` clause between the `name:` and `fields:` clauses. -/
def parseDefineClass : Nat → List Token → Nat → Except PFail (PStmt × Nat)
  | 0, _, _ => .error .fuelOut
  | _fuel + 1, tk, pos => do
    let (start, pos₁) ← parseToken tk pos exOBracket "\\["
    let (_, pos₂) ← parseSpecificClassName tk pos₁ "Class"
    let (_, pos₃) ← parseSpecificIdent tk pos₂ "subclass"
    let (_, pos₄) ← parseSpecificIdent tk pos₃ "name"
    let (_, pos₅) ← parseToken tk pos₄ exColon ":"
    let (name, pos₆) ← parseClassNameSelector tk pos₅
    let (_, pos₇) ← parseSpecificIdent tk pos₆ "fields"
    let (_, pos₈) ← parseToken tk pos₇ exColon ":"
    let (_, pos₉) ← parseToken tk pos₈ exOBracket "\\["
    let (fields, pos₁₀) ← parseManySelector (tk.length + 1) tk pos₉
    let (_, pos₁₁) ← parseToken tk pos₁₀ exCBracket "\\]"
    let (_, pos₁₂) ← parseToken tk pos₁₁ exCBracket "\\]"
    let (endSpan, pos₁₃) ← parseToken tk pos₁₂ exSemicolon ";"
    .ok (.defineClass name fields ⟨start.from_, endSpan.to_⟩, pos₁₃)

/-- Embeds `Expr::parse` (src/ast/mod.rs:397-417): ordered alternation —
`ClassNameSelector`, `ClassNew`, `Local`, `IVar`, `Selector`, `Block`,
`Number`, `List`, `True`, `False`, `Self_`, then `MessageSend` as the
fallback. -/
def parseExpr : Nat → List Token → Nat → Except PFail (PExpr × Nat)
  | 0, _, _ => .error .fuelOut
  | fuel + 1, tk, pos => do
    match ← tryP (parseClassNameSelector tk pos) with
    | some (c, pos') => .ok (.classNameSelector c, pos')
    | none =>
    match ← tryP (parseClassNew fuel tk pos) with
    | some (e, pos') => .ok (e, pos')
    | none =>
    match ← tryP (parseIdent tk pos) with
    | some (ident, pos') => .ok (.loc ident, pos')
    | none =>
    match ← tryP (parseIVar tk pos) with
    | some (e, pos') => .ok (e, pos')
    | none =>
    match ← tryP (parseSelector tk pos) with
    | some (s, pos') => .ok (.selector s, pos')
    | none =>
    match ← tryP (parseBlock fuel tk pos) with
    | some (b, pos') => .ok (.block b, pos')
    | none =>
    match ← tryP (parseNumber tk pos) with
    | some (e, pos') => .ok (e, pos')
    | none =>
    match ← tryP (parseList fuel tk pos) with
    | some (e, pos') => .ok (e, pos')
    | none =>
    match ← tryP (parseToken tk pos exTrue "true") with
    | some (s, pos') => .ok (.true_ s, pos')
    | none =>
    match ← tryP (parseToken tk pos exFalse "false") with
    | some (s, pos') => .ok (.false_ s, pos')
    | none =>
    match ← tryP (parseToken tk pos exSelf "self") with
    | some (s, pos') => .ok (.self_ s, pos')
    | none =>
    match ← tryP (parseMessageSend fuel tk pos) with
    | some (m, pos') => .ok (.messageSend m, pos')
    | none => .error (.fail "expr parse failed")

/-- Embeds `ClassNew::parse` (src/ast/mod.rs:584-600). -/
def parseClassNew : Nat → List Token → Nat → Except PFail (PExpr × Nat)
  | 0, _, _ => .error .fuelOut
  | fuel + 1, tk, pos => do
    let (start, pos₁) ← parseToken tk pos exOBracket "\\["
    let (className, pos₂) ← parseClassName tk pos₁
    let (_, pos₃) ← parseSpecificIdent tk pos₂ "new"
    let (args, pos₄) ← parseManyArgument fuel tk pos₃
    let (endSpan, pos₅) ← parseToken tk pos₄ exCBracket "\\]"
    .ok (.classNew className args ⟨start.from_, endSpan.to_⟩, pos₅)

/-- Embeds `MessageSend::parse` (src/ast/mod.rs:515-533). -/
def parseMessageSend : Nat → List Token → Nat → Except PFail (PMessageSend × Nat)
  | 0, _, _ => .error .fuelOut
  | fuel + 1, tk, pos => do
    let (start, pos₁) ← parseToken tk pos exOBracket "\\["
    let (receiver, pos₂) ← parseExpr fuel tk pos₁
    let (msg, pos₃) ← parseIdent tk pos₂
    let (args, pos₄) ← parseManyArgument fuel tk pos₃
    let (endSpan, pos₅) ← parseToken tk pos₄ exCBracket "\\]"
    .ok (.mk receiver msg args ⟨start.from_, endSpan.to_⟩, pos₅)

/-- Embeds `Argument::parse` (src/ast/mod.rs:535-550). -/
def parseArgument : Nat → List Token → Nat → Except PFail (PArgument × Nat)
  | 0, _, _ => .error .fuelOut
  | fuel + 1, tk, pos => do
    let (ident, pos₁) ← parseIdent tk pos
    let (_, pos₂) ← parseToken tk pos₁ exColon ":"
    let (expr, pos₃) ← parseExpr fuel tk pos₂
    .ok (.mk ident expr ⟨ident.span.from_, expr.span.to_⟩, pos₃)

/-- Embeds `parse_many::<Argument>`. -/
def parseManyArgument : Nat → List Token → Nat → Except PFail (List PArgument × Nat)
  | 0, _, _ => .error .fuelOut
  | fuel + 1, tk, pos =>
    if pos ≥ tk.length then .ok ([], pos)
    else do
      match ← tryP (parseArgument fuel tk pos) with
      | none => .ok ([], pos)
      | some (a, pos') => do
        let (rest, pos'') ← parseManyArgument fuel tk pos'
        .ok (a :: rest, pos'')

/-- Embeds `Number::parse` (src/ast/mod.rs:419-427); the numeric token the lexer
produces is `lex::Digit` (the source text names it `lex::Number`). -/
def parseNumber (tk : List Token) (pos : Nat) : Except PFail (PExpr × Nat) := do
  let ((d, s), pos') ← parseToken tk pos exDigit "digit"
  .ok (.number d s, pos')

/-- Embeds `IVar::parse` (src/ast/mod.rs:443-454). -/
def parseIVar (tk : List Token) (pos : Nat) : Except PFail (PExpr × Nat) := do
  let (start, pos₁) ← parseToken tk pos exAt "@"
  let (ident, pos₂) ← parseIdent tk pos₁
  .ok (.ivar ident ⟨start.from_, ident.span.to_⟩, pos₂)

/-- Embeds `List::parse` (src/ast/mod.rs:503-513). -/
def parseList : Nat → List Token → Nat → Except PFail (PExpr × Nat)
  | 0, _, _ => .error .fuelOut
  | fuel + 1, tk, pos => do
    let (start, pos₁) ← parseToken tk pos exOBracket "\\["
    let (items, pos₂) ← parseManyDelimExprComma fuel tk pos₁
    let (endSpan, pos₃) ← parseToken tk pos₂ exCBracket "\\]"
    .ok (.list items ⟨start.from_, endSpan.to_⟩, pos₃)

/-- Embeds `parse_many_delimited::<Expr, Comma>` (src/parse/parse_stream.rs:104-122). -/
def parseManyDelimExprComma : Nat → List Token → Nat → Except PFail (List PExpr × Nat)
  | 0, _, _ => .error .fuelOut
  | fuel + 1, tk, pos =>
    if pos ≥ tk.length then .ok ([], pos)
    else do
      match ← tryP (parseExpr fuel tk pos) with
      | none => .ok ([], pos)
      | some (e, pos') => do
        match ← tryP (parseToken tk pos' exComma ",") with
        | none => .ok ([e], pos')
        | some (_, pos'') => do
          let (rest, pos''') ← parseManyDelimExprComma fuel tk pos''
          .ok (e :: rest, pos''')

/-- Embeds `Block::parse` (src/ast/mod.rs:552-568). -/
def parseBlock : Nat → List Token → Nat → Except PFail (PBlock × Nat)
  | 0, _, _ => .error .fuelOut
  | fuel + 1, tk, pos => do
    let (start, pos₁) ← parseToken tk pos exPipe "\\|"
    let (parameters, pos₂) ← parseManyParameter (tk.length + 1) tk pos₁
    let (_, pos₃) ← parseToken tk pos₂ exPipe "\\|"
    let (_, pos₄) ← parseToken tk pos₃ exOBrace "\\x7b"
    let (body, pos₅) ← parseManyStmt fuel tk pos₄
    let (endSpan, pos₆) ← parseToken tk pos₅ exCBrace "\\x7d"
    .ok (.mk parameters body ⟨start.from_, endSpan.to_⟩, pos₆)

/-- Embeds `parse_many::<Stmt>`. -/
def parseManyStmt : Nat → List Token → Nat → Except PFail (List PStmt × Nat)
  | 0, _, _ => .error .fuelOut
  | fuel + 1, tk, pos =>
    if pos ≥ tk.length then .ok ([], pos)
    else do
      match ← tryP (parseStmt fuel tk pos) with
      | none => .ok ([], pos)
      | some (s, pos') => do
        let (rest, pos'') ← parseManyStmt fuel tk pos'
        .ok (s :: rest, pos'')

end

/-- The top-level entry (src/parse/mod.rs:11-20, `pub fn parse`):
`parse_many::<Stmt>()`, then fail unless the whole stream was consumed. -/
def parse (fuel : Nat) (tk : List Token) : Except PFail (List PStmt) := do
  let (acc, pos) ← parseManyStmt fuel tk 0
  if pos < tk.length then .error (.fail "Expected EOF, but wasn\x27t")
  else .ok acc

end Parser

namespace Prep

/-- A class descriptor while the table is being built
(src/prep/mod.rs, `struct Class`): the superclass handle starts out `None`
and is patched by `setup_super_classes`.  The descriptors sit behind
`Rc` handles; those handles are modelled as indices into a store so that
the strong count `Rc::get_mut` inspects can be tracked. -/
structure PrepClass where
  name : Ident
  superClassName : Ident
  superClass : Option Nat
  fields : List (String × Field)
  methods : List (String × Method)
  span : Span
deriving Repr

/-- State of the first pass (src/prep/mod.rs, `struct FindClasses`): the
store holds one descriptor per allocated `Rc`, the table maps class name to
its handle. -/
structure FindClasses where
  store : List PrepClass
  table : List (String × Nat)
deriving Repr

/-- Embeds `FindClasses::make_fields` (src/prep/mod.rs:70-79): collect the declared
field selectors into a map keyed by field name. -/
def makeFields (fields : List Selector) : List (String × Field) :=
  fields.foldl (fun acc f => hmInsert acc f.ident.name ⟨f.ident⟩) []

/-- Embeds `FindClasses::visit_define_class` (src/prep/mod.rs:36-50 with the check
at 54-68): fail when the name is already in the table (citing both spans),
otherwise insert a descriptor with no superclass handle yet. -/
def visitDefineClass (st : FindClasses) (name : ClassNameSelector)
    (superClass : ClassNameSelector) (fields : List Selector) (span : Span) :
    Except Failure FindClasses :=
  let key := name.className.ident.name
  match hmGet st.table key with
  | some otherId =>
    match st.store.get? otherId with
    | some other => .error (.err (.classAlreadyDefined key other.span span))
    | none => .error (.panicked "dangling class handle")
  | none =>
    let cls : PrepClass :=
      { name := name.className.ident, superClassName := superClass.className.ident,
        superClass := none, fields := makeFields fields, methods := [], span := span }
    .ok { store := st.store ++ [cls], table := hmInsert st.table key st.store.length }

/-- The traversal of `find_classes` (src/prep/mod.rs:20-27): visit every
`DefineClass` statement in program order; every other statement kind falls
to the visitor's default no-op. -/
def findClassesRun (st : FindClasses) : Ast → Except Failure FindClasses
  | [] => .ok st
  | .defineClass name superClass fields span :: rest => do
    let st' ← visitDefineClass st name superClass fields span
    findClassesRun st' rest
  | _ :: rest => findClassesRun st rest

/-- Strong-count contribution from patched superclass handles: every
descriptor whose `super_class` was set to `Some(rc)` owns a clone of that
`Rc`. -/
def patchRefs (store : List PrepClass) (id : Nat) : Nat :=
  store.countP (fun c => c.superClass = some id)

/-- The first loop of `FindClasses::setup_super_classes`
(src/prep/mod.rs:82-102): walk the table in its (arbitrary) hash-map
iteration order, skip the class named `Object`, resolve every other class's
declared superclass name against the table — failing with class-not-defined
at the subclass's span — and stash `(class name, cloned superclass handle,
subclass span)` into `acc`.  No descriptor is touched here. -/
def buildAcc (store : List PrepClass) (table : List (String × Nat)) :
    List (String × Nat) → Except Failure (List (String × Nat × Span))
  | [] => .ok []
  | (className, id) :: rest =>
    if className = "Object" then buildAcc store table rest
    else
      match store.get? id with
      | none => .error (.panicked "dangling class handle")
      | some cls =>
        match hmGet table cls.superClassName.name with
        | none => .error (.err (.classNotDefined cls.superClassName.name cls.span))
        | some superId => do
          let acc ← buildAcc store table rest
          .ok ((className, superId, cls.span) :: acc)

/-- The second loop of `FindClasses::setup_super_classes`
(src/prep/mod.rs:104-116): for each `acc` entry (in the hash map's
arbitrary iteration order) fetch the class's `Rc` from the table and patch
its `super_class` through `Rc::get_mut`, which panics
(`"Internal error: Rc borrowed mut more than once"`) unless the strong
count is exactly 1.  Besides the table's own handle, handles to a class
live in the unprocessed `acc` entries, in the current entry's moved-out
superclass handle, and in every already-patched `super_class` field. -/
def patchAcc (store : List PrepClass) (table : List (String × Nat)) :
    List (String × Nat × Span) → Except Failure (List PrepClass)
  | [] => .ok store
  | (className, superId, span) :: restAcc =>
    match hmGet table className with
    | none => .error (.err (.classNotDefined className span))
    | some id =>
      let otherHandles := restAcc.countP (fun e => e.2.1 = id) +
        (if superId = id then 1 else 0) + patchRefs store id
      if otherHandles ≠ 0 then
        .error (.panicked "Internal error: Rc borrowed mut more than once")
      else
        match store.get? id with
        | none => .error (.panicked "dangling class handle")
        | some c =>
          patchAcc (store.set id { c with superClass := some superId }) table restAcc

/-- Embeds `FindClasses::setup_super_classes` (src/prep/mod.rs:81-119): all
superclass lookups run before any patch is applied.  `tableIter` and the
produced `acc` order stand for the hash map's arbitrary iteration order;
the canonical pipeline below passes the insertion-ordered table. -/
def setupSuperClasses (store : List PrepClass) (table : List (String × Nat))
    (tableIter : List (String × Nat)) : Except Failure (List PrepClass) := do
  let acc ← buildAcc store table tableIter
  patchAcc store table acc

/-- Embeds `FindMethods::visit_define_method` (src/prep/mod.rs:135-166): resolve
the owning class, reject a duplicate method on that same class (citing both
spans), then insert the descriptor through `Rc::get_mut`, which panics
(`"Internal error: FindMethods.classes borrowed mut more than once"`)
unless the table's handle is the only one — after linking, a class that is
someone's superclass is also referenced by the subclass's patched
`super_class` handle. -/
def visitDefineMethod (store : List PrepClass) (table : List (String × Nat))
    (className : ClassName) (methodName : Selector) (block : Block) (span : Span) :
    Except Failure (List PrepClass) :=
  let key := methodName.ident.name
  match hmGet table className.ident.name with
  | none => .error (.err (.classNotDefined className.ident.name span))
  | some id =>
    match store.get? id with
    | none => .error (.panicked "dangling class handle")
    | some cls =>
      match hmGet cls.methods key with
      | some other =>
        .error (.err (.methodAlreadyDefined cls.name.name key other.span span))
      | none =>
        if patchRefs store id ≠ 0 then
          .error (.panicked "Internal error: FindMethods.classes borrowed mut more than once")
        else
          let method : Method :=
            { name := methodName.ident, parameters := block.parameters,
              body := block.body, span := span }
          .ok (store.set id { cls with methods := hmInsert cls.methods key method })

/-- The traversal of `find_methods` (src/prep/mod.rs:126-130). -/
def findMethodsRun (store : List PrepClass) (table : List (String × Nat)) :
    Ast → Except Failure (List PrepClass)
  | [] => .ok store
  | .defineMethod className methodName block span :: rest => do
    let store' ← visitDefineMethod store table className methodName block span
    findMethodsRun store' table rest
  | _ :: rest => findMethodsRun store table rest

/-- The built-in `Object` descriptor seeded before the passes run
(src/main.rs:48-54 and 61-70, `built_in_class`). -/
def objectClass : PrepClass :=
  { name := ⟨"Object", ⟨0, 0⟩⟩, superClassName := ⟨"Object", ⟨0, 0⟩⟩,
    superClass := none, fields := [], methods := [], span := ⟨0, 0⟩ }

/-- The seeded initial state (src/main.rs:48-54). -/
def seeded : FindClasses :=
  { store := [objectClass], table := [("Object", 0)] }

/-- Embeds `find_classes_and_methods` (src/prep/mod.rs:12-18): collect classes,
link superclasses (iterating the table in insertion order — one of the
hash map's possible orders), then collect methods. -/
def findClassesAndMethods (ast : Ast) :
    Except Failure (List PrepClass × List (String × Nat)) := do
  let st ← findClassesRun seeded ast
  let store ← setupSuperClasses st.store st.table st.table
  let store' ← findMethodsRun store st.table ast
  .ok (store', st.table)

/-- Bridge from store handles to the evaluator's by-value `Class`
(an `Rc<Class>` dereference chain; fuel bounds the superclass chain, which
is finite for every store the linker produces). -/
def resolveClass : Nat → List PrepClass → Nat → Option Class
  | 0, _, _ => none
  | fuel + 1, store, id =>
    match store.get? id with
    | none => none
    | some c =>
      match c.superClass with
      | none => some (.mk c.name c.superClassName none c.fields c.methods c.span)
      | some sid =>
        match resolveClass fuel store sid with
        | none => none
        | some sup => some (.mk c.name c.superClassName (some sup) c.fields c.methods c.span)

/-- The class table handed to `Interpreter::new` (src/main.rs:56-57),
with every handle dereferenced to a by-value `Class`. -/
def classTableOf (store : List PrepClass) (table : List (String × Nat)) :
    List (String × Class) :=
  table.foldr (fun (p : String × Nat) acc =>
    match resolveClass (store.length + 1) store p.2 with
    | some c => (p.1, c) :: acc
    | none => acc) []

end Prep

/-!  Concrete programs used to settle the claims.  Spans are distinct
dummy byte ranges; no parser or evaluator control flow inspects a span's
numeric value. -/

/-- Shorthand for a dummy span. -/
def dsp (i : Nat) : Span := ⟨i, i + 1⟩

/-- Shorthand for a `#ClassName` selector node. -/
def cnsel (s : String) (i : Nat) : ClassNameSelector := ⟨⟨⟨s, dsp i⟩⟩, dsp i⟩

/-- Claim C1 failing input: `[Class subclass name: #A super: #Object fields: []];`
`[A def: #m do: || { return 1; return 2; }];` and the send `[[A new] m]`. -/
def c1Ast : Ast :=
  [.defineClass (cnsel "A" 1) (cnsel "Object" 2) [] (dsp 0),
   .defineMethod ⟨⟨"A", dsp 4⟩⟩ ⟨⟨"m", dsp 5⟩, dsp 5⟩
     (.mk [] [.ret (.number 1 (dsp 6)) (dsp 7), .ret (.number 2 (dsp 8)) (dsp 9)] (dsp 10))
     (dsp 3)]

/-- The evaluator state after class-table building for `c1Ast`. -/
def c1Interp : Interpreter :=
  { classes :=
      match Prep.findClassesAndMethods c1Ast with
      | .ok (store, table) => Prep.classTableOf store table
      | .error _ => [],
    locals := [], self_ := none, returnValue := none }

/-- The send `[[A new] m]`. -/
def c1Send : MessageSend :=
  .mk (.classNew ⟨⟨"A", dsp 11⟩⟩ [] (dsp 12)) ⟨"m", dsp 13⟩ [] (dsp 14)

/-- Claim C2 failing input: `[Class subclass name: #P super: #Object fields: []];`
`[P def: #m do: || { let @x = 1; }];` and the send `[[P new] m]`, which
reaches `visit_let_ivar` with an active instance self and no pending
return. -/
def c2Ast : Ast :=
  [.defineClass (cnsel "P" 1) (cnsel "Object" 2) [] (dsp 0),
   .defineMethod ⟨⟨"P", dsp 4⟩⟩ ⟨⟨"m", dsp 5⟩, dsp 5⟩
     (.mk [] [.letIVar ⟨"x", dsp 6⟩ (.number 1 (dsp 7)) (dsp 8)] (dsp 9))
     (dsp 3)]

/-- The evaluator state after class-table building for `c2Ast`. -/
def c2Interp : Interpreter :=
  { classes :=
      match Prep.findClassesAndMethods c2Ast with
      | .ok (store, table) => Prep.classTableOf store table
      | .error _ => [],
    locals := [], self_ := none, returnValue := none }

/-- The send `[[P new] m]`. -/
def c2Send : MessageSend :=
  .mk (.classNew ⟨⟨"P", dsp 11⟩⟩ [] (dsp 12)) ⟨"m", dsp 13⟩ [] (dsp 14)

/-- Claim C5 failing input: `[Class subclass name: #Dog super: #Object fields: []];`
with the send `[[Dog new] bark]` — no class in the chain defines `bark`. -/
def c5Ast : Ast :=
  [.defineClass (cnsel "Dog" 1) (cnsel "Object" 2) [] (dsp 0)]

/-- The evaluator state after class-table building for `c5Ast`. -/
def c5Interp : Interpreter :=
  { classes :=
      match Prep.findClassesAndMethods c5Ast with
      | .ok (store, table) => Prep.classTableOf store table
      | .error _ => [],
    locals := [], self_ := none, returnValue := none }

/-- The send `[[Dog new] bark]`. -/
def c5Send : MessageSend :=
  .mk (.classNew ⟨⟨"Dog", dsp 11⟩⟩ [] (dsp 12)) ⟨"bark", dsp 13⟩ [] (dsp 14)

/-- Claim C6 failing input: the token sequence of the unterminated source
`[#Dog` — `[` at bytes 0-1, `#` at 1-2, `Dog` at 2-5. -/
def c6Tokens : List Parser.Token :=
  [.oBracket ⟨0, 1⟩, .hash ⟨1, 2⟩, .className "Dog" ⟨2, 5⟩]

/-- Claim C3 input: the token sequence of
`let n = 1;`
`[Class subclass name: #Person super: #Object fields: [#age]];`
`[Person def: #age do: || { return self; }];`
`[[Person new age: n] age];`
(spans are dummy indices; no parse decision reads a span's value). -/
def c3Tokens : List Parser.Token :=
  [.let_ (dsp 0), .name "n" (dsp 1), .eq (dsp 2), .digit 1 (dsp 3), .semicolon (dsp 4),
   .oBracket (dsp 5), .className "Class" (dsp 6), .name "subclass" (dsp 7),
   .name "name" (dsp 8), .colon (dsp 9), .hash (dsp 10), .className "Person" (dsp 11),
   .name "super" (dsp 12), .colon (dsp 13), .hash (dsp 14), .className "Object" (dsp 15),
   .name "fields" (dsp 16), .colon (dsp 17), .oBracket (dsp 18), .hash (dsp 19),
   .name "age" (dsp 20), .cBracket (dsp 21), .cBracket (dsp 22), .semicolon (dsp 23),
   .oBracket (dsp 24), .className "Person" (dsp 25), .name "def" (dsp 26), .colon (dsp 27),
   .hash (dsp 28), .name "age" (dsp 29), .name "do" (dsp 30), .colon (dsp 31),
   .pipe (dsp 32), .pipe (dsp 33), .oBrace (dsp 34), .ret (dsp 35), .self_ (dsp 36),
   .semicolon (dsp 37), .cBrace (dsp 38), .cBracket (dsp 39), .semicolon (dsp 40),
   .oBracket (dsp 41), .oBracket (dsp 42), .className "Person" (dsp 43),
   .name "new" (dsp 44), .name "age" (dsp 45), .colon (dsp 46), .name "n" (dsp 47),
   .cBracket (dsp 48), .name "age" (dsp 49), .cBracket (dsp 50), .semicolon (dsp 51)]

/-- Claim C4 failing input 1: `[Class subclass name: #B super: #Object fields: []];`
`[Class subclass name: #C super: #B fields: []];` — a valid two-level
hierarchy C ⊂ B ⊂ Object. -/
def c4ChainAst : Ast :=
  [.defineClass (cnsel "B" 1) (cnsel "Object" 2) [] (dsp 0),
   .defineClass (cnsel "C" 4) (cnsel "B" 5) [] (dsp 3)]

/-- The store the collection pass produces for `c4ChainAst`. -/
def c4Store : List Prep.PrepClass :=
  [Prep.objectClass,
   { name := ⟨"B", dsp 1⟩, superClassName := ⟨"Object", dsp 2⟩, superClass := none,
     fields := [], methods := [], span := dsp 0 },
   { name := ⟨"C", dsp 4⟩, superClassName := ⟨"B", dsp 5⟩, superClass := none,
     fields := [], methods := [], span := dsp 3 }]

/-- The table the collection pass produces for `c4ChainAst`. -/
def c4Table : List (String × Nat) := [("Object", 0), ("B", 1), ("C", 2)]

/-- Claim C4 failing input 2: `[Class subclass name: #A super: #Object fields: []];`
`[Object def: #foo do: || { return 1; }];` — a method inserted on a class
(`Object`) that serves as another class's superclass. -/
def c4MethodAst : Ast :=
  [.defineClass (cnsel "A" 1) (cnsel "Object" 2) [] (dsp 0),
   .defineMethod ⟨⟨"Object", dsp 4⟩⟩ ⟨⟨"foo", dsp 5⟩, dsp 5⟩
     (.mk [] [.ret (.number 1 (dsp 6)) (dsp 7)] (dsp 8)) (dsp 3)]

/-- The name reported first by the removal loop: the first required name
with no matching label. -/
def firstMissing : List String → List String → Option String
  | [], _ => none
  | p :: rest, labels =>
    if labels.contains p then firstMissing rest labels else some p

/-- Claim C7 counterexample input: the class of
`[Class subclass name: #C super: #Object fields: [#a #b]];` — fields are
declared in the order `a`, `b`, and the field table is a hash map whose
iteration order is arbitrary; `[("b", _), ("a", _)]` below is one of its
possible iteration orders. -/
def c7Class : Class :=
  .mk ⟨"C", dsp 0⟩ ⟨"Object", dsp 3⟩
    (some (.mk ⟨"Object", ⟨0, 0⟩⟩ ⟨"Object", ⟨0, 0⟩⟩ none [] [] ⟨0, 0⟩))
    [("b", ⟨⟨"b", dsp 2⟩⟩), ("a", ⟨⟨"a", dsp 1⟩⟩)] [] (dsp 4)

/-- The evaluator state whose class table holds `c7Class`. -/
def c7Interp : Interpreter :=
  { classes := [("C", c7Class)], locals := [], self_ := none, returnValue := none }

/-- The frame used by the C10 witness: empty class table, one local, an
active self, and the pending return already set. -/
def c10Interp : Interpreter :=
  { classes := [], locals := [("z", Value.nil)], self_ := some Value.nil,
    returnValue := some Value.nil }

/-- The statement used by the C10 witness. -/
def c10Stmt : Stmt :=
  .messageSendStmt (.mk (.number 1 (dsp 0)) ⟨"m", dsp 1⟩ [] (dsp 2)) (dsp 3)

/-- Claim C1: the spec says that once the pending return value is set,
every subsequent statement of the same sequence — including a further
`Return` — is skipped and the pending value is not overwritten.  The code
checks the flag in `visit_let_local`, `visit_let_ivar` and
`visit_message_send_stmt` but not in `visit_return`
(src/interpret/mod.rs:94-98), so a second `return` is executed: in the
method body `return 1; return 2;` the send evaluates to `2`, the second
return's expression having been evaluated and its value having overwritten
the pending `1`. -/
theorem C1_second_return_overwrites_pending_value :
    evalMessageSend 5 c1Interp c1Send = .ok (.number 2) ∧
    Value.number 2 ≠ Value.number 1 := by
  constructor
  · simp [c1Interp, c1Send, c1Ast, Prep.findClassesAndMethods, Prep.findClassesRun,
      Prep.visitDefineClass, Prep.makeFields, Prep.seeded, Prep.objectClass,
      Prep.setupSuperClasses, Prep.buildAcc, Prep.patchAcc, Prep.patchRefs,
      Prep.findMethodsRun, Prep.visitDefineMethod, Prep.classTableOf, Prep.resolveClass,
      evalMessageSend, evalExpr, evalArgs, bindArguments, lookupClass, hmGet, hmInsert,
      hmRemove, Class.getMethodNamed, Instance.cls, Class.fields, Class.methods, Class.name,
      copyForMethodCall, execStmts, visitStmt, Block.parameters, Block.body, dsp, cnsel,
      bind, Except.bind, pure, Except.pure, List.countP, List.countP.go]
  · simp

/-- Claim C2: the spec says `let @name = expr;` with an instance self
stores the value into the instance's variable table.  The code's
`visit_let_ivar` (src/interpret/mod.rs:78-84) is
`unimplemented!("TODO: visit_let_ivar")`: reaching the statement panics
instead of storing. -/
theorem C2_let_ivar_is_unimplemented :
    evalMessageSend 5 c2Interp c2Send =
      .error (.panicked "not implemented: TODO: visit_let_ivar") := by
  simp [c2Interp, c2Send, c2Ast, Prep.findClassesAndMethods, Prep.findClassesRun,
    Prep.visitDefineClass, Prep.makeFields, Prep.seeded, Prep.objectClass,
    Prep.setupSuperClasses, Prep.buildAcc, Prep.patchAcc, Prep.patchRefs,
    Prep.findMethodsRun, Prep.visitDefineMethod, Prep.classTableOf, Prep.resolveClass,
    evalMessageSend, evalExpr, evalArgs, bindArguments, lookupClass, hmGet, hmInsert,
    hmRemove, Class.getMethodNamed, Instance.cls, Class.fields, Class.methods, Class.name,
    copyForMethodCall, execStmts, visitStmt, Block.parameters, Block.body, dsp, cnsel,
    bind, Except.bind, pure, Except.pure, List.countP, List.countP.go]

/-- Claim C5: the spec says the undefined-method error names the
*receiver's* class.  `Class::get_method_named` (src/prep/mod.rs:230-252)
recurses into the superclass and builds the error from the class at which
the walk ended, so the error names `Object`, not the receiver's class
`Dog` — the source's own comment (`// TODO: Change method name of returned
error / Otherwise it'll always be "Object"`) records the defect. -/
theorem C5_undefined_method_names_ancestor_not_receiver :
    evalMessageSend 5 c5Interp c5Send =
      .error (.err (.undefinedMethod "Object" "bark" (dsp 14))) ∧
    "Object" ≠ "Dog" := by
  constructor
  · simp [c5Interp, c5Send, c5Ast, Prep.findClassesAndMethods, Prep.findClassesRun,
      Prep.visitDefineClass, Prep.makeFields, Prep.seeded, Prep.objectClass,
      Prep.setupSuperClasses, Prep.buildAcc, Prep.patchAcc, Prep.patchRefs,
      Prep.findMethodsRun, Prep.visitDefineMethod, Prep.classTableOf, Prep.resolveClass,
      evalMessageSend, evalExpr, evalArgs, bindArguments, lookupClass, hmGet, hmInsert,
      hmRemove, Class.getMethodNamed, Instance.cls, Class.fields, Class.methods, Class.name,
      copyForMethodCall, execStmts, visitStmt, Block.parameters, Block.body, dsp, cnsel,
      bind, Except.bind, pure, Except.pure, List.countP, List.countP.go]
  · decide

/-- Claim C6: the spec says parsing `[#Dog` fails gracefully with an
expected-token message.  The parse instead aborts abnormally:
`Stmt::parse` falls through to the `MessageSendStmt` alternative, whose
`MessageSend::parse` consumes `[` and parses `#Dog` as a
`ClassNameSelector` expression, and the following `parse_node::<Ident>`
indexes `self.tokens[3]` in a 3-token stream
(src/parse/parse_stream.rs:18-30 has no bounds check), which panics. -/
theorem C6_unterminated_source_panics_out_of_bounds :
    Parser.parse 100 c6Tokens =
      .error (.panicked "index out of bounds: the len is the number of tokens but the index is the current position") := by
  simp [Parser.parse, Parser.parseManyStmt, Parser.parseStmt, Parser.parseDefineClass,
    Parser.parseDefineMethod, Parser.parseLetLocal, Parser.parseLetIVar,
    Parser.parseMessageSendStmt, Parser.parseReturn, Parser.parseExpr,
    Parser.parseClassNameSelector, Parser.parseClassNew, Parser.parseIdent, Parser.parseIVar,
    Parser.parseSelector, Parser.parseBlock, Parser.parseNumber, Parser.parseList,
    Parser.parseMessageSend, Parser.parseArgument, Parser.parseManyArgument,
    Parser.parseManyDelimExprComma, Parser.parseManySelector, Parser.parseManyParameter,
    Parser.parseSpecificIdent, Parser.parseSpecificClassName, Parser.parseClassName,
    Parser.parseToken, Parser.tryP, c6Tokens, Parser.exLet, Parser.exSelf, Parser.exName,
    Parser.exClassName, Parser.exEq, Parser.exDigit, Parser.exSemicolon, Parser.exOBracket,
    Parser.exCBracket, Parser.exOBrace, Parser.exCBrace, Parser.exColon, Parser.exAt,
    Parser.exHash, Parser.exComma, Parser.exPipe, Parser.exTrue, Parser.exFalse,
    Parser.exReturn, Parser.display, bind, Except.bind, pure, Except.pure, List.get]

/-- Claim C3: the spec's grammar has a `super:` ClassSelector clause between
`name:` and `fields:`, and the scenario is claimed to parse and evaluate.
The implemented `DefineClass::parse` (src/ast/mod.rs:360-387) consumes no
such clause: after the `name:` clause it requires the identifier `fields`,
so on this program the `DefineClass` alternative fails at `super`
(second conjunct), every other statement alternative fails too, and the
top-level parse stops after `let n = 1;` and fails with the
expected-end-of-input error (first conjunct) — nothing is ever evaluated.
(`struct DefineClass`, src/ast/mod.rs:95-99, has no superclass field,
although src/prep/mod.rs:44 reads `node.super_class` — the grammar in the
spec is the evident intent.) -/
theorem C3_define_class_super_clause_rejected :
    Parser.parse 200 c3Tokens = .error (.fail "Expected EOF, but wasn\x27t") ∧
    Parser.parseDefineClass 200 c3Tokens 5 =
      .error (.fail "Expected class named \x27fields\x27 but got \x27super\x27") := by
  constructor
  · simp [Parser.parse, Parser.parseManyStmt, Parser.parseStmt, Parser.parseDefineClass,
      Parser.parseDefineMethod, Parser.parseLetLocal, Parser.parseLetIVar,
      Parser.parseMessageSendStmt, Parser.parseReturn, Parser.parseExpr,
      Parser.parseClassNameSelector, Parser.parseClassNew, Parser.parseIdent, Parser.parseIVar,
      Parser.parseSelector, Parser.parseBlock, Parser.parseNumber, Parser.parseList,
      Parser.parseMessageSend, Parser.parseArgument, Parser.parseManyArgument,
      Parser.parseManyDelimExprComma, Parser.parseManySelector, Parser.parseManyParameter,
      Parser.parseSpecificIdent, Parser.parseSpecificClassName, Parser.parseClassName,
      Parser.parseToken, Parser.tryP, c3Tokens, dsp, Parser.exLet, Parser.exSelf,
      Parser.exName, Parser.exClassName, Parser.exEq, Parser.exDigit, Parser.exSemicolon,
      Parser.exOBracket, Parser.exCBracket, Parser.exOBrace, Parser.exCBrace, Parser.exColon,
      Parser.exAt, Parser.exHash, Parser.exComma, Parser.exPipe, Parser.exTrue,
      Parser.exFalse, Parser.exReturn, Parser.display, bind, Except.bind, pure, Except.pure,
      List.get]
  · simp [Parser.parseDefineClass, Parser.parseSpecificIdent, Parser.parseSpecificClassName,
      Parser.parseClassName, Parser.parseClassNameSelector, Parser.parseIdent,
      Parser.parseToken, c3Tokens, dsp, Parser.exName, Parser.exClassName, Parser.exColon,
      Parser.exHash, Parser.exOBracket, Parser.display, bind, Except.bind, pure, Except.pure,
      List.get]

/-- Claim C4: the spec says class-table building completes on every valid
single-inheritance hierarchy.  The linking pass patches superclass handles
through `Rc::get_mut` (src/prep/mod.rs:113-115), which panics unless the
strong count is 1: for the chain C ⊂ B ⊂ Object the handle to B is held
both by the table and by either the pending `acc` entry for C or C's
already-patched `super_class`, so the build aborts with
`"Internal error: Rc borrowed mut more than once"` under **either**
iteration order of the two `acc` entries (conjuncts 2-4).  Likewise
`FindMethods::visit_define_method` (src/prep/mod.rs:161-162) panics when
inserting a method on a class that is someone's superclass (conjunct 5). -/
theorem C4_linking_panics_on_two_level_hierarchy :
    Prep.findClassesAndMethods c4ChainAst =
      .error (.panicked "Internal error: Rc borrowed mut more than once") ∧
    Prep.findClassesRun Prep.seeded c4ChainAst =
      .ok { store := c4Store, table := c4Table } ∧
    Prep.patchAcc c4Store c4Table [("B", 0, dsp 0), ("C", 1, dsp 3)] =
      .error (.panicked "Internal error: Rc borrowed mut more than once") ∧
    Prep.patchAcc c4Store c4Table [("C", 1, dsp 3), ("B", 0, dsp 0)] =
      .error (.panicked "Internal error: Rc borrowed mut more than once") ∧
    Prep.findClassesAndMethods c4MethodAst =
      .error (.panicked "Internal error: FindMethods.classes borrowed mut more than once") := by
  refine ⟨?_, ?_, ?_, ?_, ?_⟩ <;>
    simp [c4ChainAst, c4MethodAst, c4Store, c4Table, Prep.findClassesAndMethods,
      Prep.findClassesRun, Prep.visitDefineClass, Prep.makeFields, Prep.seeded,
      Prep.objectClass, Prep.setupSuperClasses, Prep.buildAcc, Prep.patchAcc, Prep.patchRefs,
      Prep.findMethodsRun, Prep.visitDefineMethod, hmGet, hmInsert, dsp, cnsel,
      bind, Except.bind, pure, Except.pure, List.countP, List.countP.go]

/-!  Lemmas about the association-list model of `HashMap` used by the
argument-binding algorithm. -/

theorem hmGet_insert_self {α : Type} (l : List (String × α)) (k : String) (v : α) :
    hmGet (hmInsert l k v) k = some v := by
  induction l with
  | nil => simp [hmInsert, hmGet]
  | cons e rest ih =>
    obtain ⟨k', w⟩ := e
    by_cases h : k' = k <;> simp [hmInsert, hmGet, h, ih]

theorem hmGet_insert_ne {α : Type} (l : List (String × α)) (k q : String) (v : α)
    (h : q ≠ k) : hmGet (hmInsert l k v) q = hmGet l q := by
  have h' : k ≠ q := Ne.symm h
  induction l with
  | nil => simp [hmInsert, hmGet, h']
  | cons e rest ih =>
    obtain ⟨k', w⟩ := e
    by_cases h1 : k' = k
    · subst h1
      simp [hmInsert, hmGet, h']
    · simp [hmInsert, hmGet, h1, ih]

theorem hmRemove_eq_none_iff {α : Type} (l : List (String × α)) (k : String) :
    hmRemove l k = none ↔ k ∉ l.map Prod.fst := by
  induction l with
  | nil => simp [hmRemove]
  | cons e rest ih =>
    obtain ⟨k', w⟩ := e
    by_cases h : k' = k
    · subst h; simp [hmRemove]
    · rw [hmRemove, if_neg h]
      cases hrec : hmRemove rest k with
      | none =>
        simp only [List.map_cons, List.mem_cons]
        have := ih.mp hrec
        simp [this, Ne.symm h]
      | some p =>
        obtain ⟨x, l₂⟩ := p
        have : k ∈ rest.map Prod.fst := by
          by_contra hc
          rw [ih.mpr hc] at hrec
          cases hrec
        simp [this]

theorem hmRemove_cases {α : Type} {l l' : List (String × α)} {k k' : String} {w v : α}
    (h : hmRemove ((k', w) :: l) k = some (v, l')) :
    (k' = k ∧ w = v ∧ l = l') ∨
    (k' ≠ k ∧ ∃ l₂, hmRemove l k = some (v, l₂) ∧ l' = (k', w) :: l₂) := by
  rw [hmRemove] at h
  by_cases hk : k' = k
  · rw [if_pos hk] at h
    injection h with h2
    injection h2 with ha hb
    exact Or.inl ⟨hk, ha, hb⟩
  · rw [if_neg hk] at h
    cases hrec : hmRemove l k with
    | none => rw [hrec] at h; cases h
    | some p =>
      obtain ⟨x, l₂⟩ := p
      rw [hrec] at h
      injection h with h2
      injection h2 with ha hb
      subst ha
      exact Or.inr ⟨hk, l₂, rfl, hb.symm⟩

theorem hmRemove_mem {α : Type} {l l' : List (String × α)} {k : String} {v : α}
    (h : hmRemove l k = some (v, l')) : ∀ e ∈ l', e ∈ l := by
  induction l generalizing l' with
  | nil => cases h
  | cons x rest ih =>
    obtain ⟨k', w⟩ := x
    rcases hmRemove_cases h with ⟨-, -, rfl⟩ | ⟨-, l₂, hrec, rfl⟩
    · exact fun e he => List.mem_cons_of_mem _ he
    · intro e he
      rcases List.mem_cons.mp he with h3 | h3
      · exact h3 ▸ List.mem_cons_self _ _
      · exact List.mem_cons_of_mem _ (ih hrec e h3)

theorem hmRemove_mem_of_ne {α : Type} {l l' : List (String × α)} {k : String} {v : α}
    (h : hmRemove l k = some (v, l')) : ∀ e ∈ l, e.1 ≠ k → e ∈ l' := by
  induction l generalizing l' with
  | nil => cases h
  | cons x rest ih =>
    obtain ⟨k', w⟩ := x
    rcases hmRemove_cases h with ⟨rfl, -, rfl⟩ | ⟨-, l₂, hrec, rfl⟩
    · intro e he hne
      rcases List.mem_cons.mp he with h3 | h3
      · exact absurd (congrArg Prod.fst h3) hne
      · exact h3
    · intro e he hne
      rcases List.mem_cons.mp he with h3 | h3
      · exact h3 ▸ List.mem_cons_self _ _
      · exact List.mem_cons_of_mem _ (ih hrec e h3 hne)

theorem hmRemove_keys {α : Type} {l l' : List (String × α)} {k : String} {v : α}
    (h : hmRemove l k = some (v, l')) : l'.map Prod.fst = (l.map Prod.fst).erase k := by
  induction l generalizing l' with
  | nil => cases h
  | cons x rest ih =>
    obtain ⟨k', w⟩ := x
    rcases hmRemove_cases h with ⟨rfl, -, rfl⟩ | ⟨hne, l₂, hrec, rfl⟩
    · simp [List.erase_cons_head]
    · simp only [List.map_cons]
      rw [List.erase_cons_tail (by simpa using hne), ih hrec]

theorem hmRemove_get {α : Type} {l l' : List (String × α)} {k : String} {v : α}
    (h : hmRemove l k = some (v, l')) : hmGet l k = some v := by
  induction l generalizing l' with
  | nil => cases h
  | cons x rest ih =>
    obtain ⟨k', w⟩ := x
    rcases hmRemove_cases h with ⟨rfl, rfl, rfl⟩ | ⟨hne, l₂, hrec, rfl⟩
    · simp [hmGet]
    · simp [hmGet, hne]
      exact ih hrec

theorem hmInsert_fresh {α : Type} (l : List (String × α)) (k : String) (v : α)
    (h : k ∉ l.map Prod.fst) : hmInsert l k v = l ++ [(k, v)] := by
  induction l with
  | nil => simp [hmInsert]
  | cons e rest ih =>
    obtain ⟨k', w⟩ := e
    simp only [List.map_cons, List.mem_cons] at h
    push_neg at h
    simp [hmInsert, Ne.symm h.1, ih h.2]

theorem contains_eq_true_iff (l : List String) (a : String) :
    l.contains a = true ↔ a ∈ l := List.elem_iff

theorem hmGet_of_mem_nodup {α : Type} {l : List (String × α)}
    (hnd : (l.map Prod.fst).Nodup) {e : String × α} (he : e ∈ l) :
    hmGet l e.1 = some e.2 := by
  induction l with
  | nil => cases he
  | cons x rest ih =>
    simp only [List.map_cons, List.nodup_cons] at hnd
    rcases List.mem_cons.mp he with h1 | h1
    · subst h1
      obtain ⟨k, v⟩ := e
      simp [hmGet]
    · obtain ⟨k', w⟩ := x
      have hne : k' ≠ e.1 := by
        intro hc
        exact hnd.1 (hc ▸ List.mem_map.mpr ⟨e, h1, rfl⟩)
      simp only [hmGet, hne, if_false]
      exact ih hnd.2 h1

theorem firstMissing_congr (params : List String) (labels labels' : List String)
    (h : ∀ r ∈ params, (labels'.contains r) = (labels.contains r)) :
    firstMissing params labels' = firstMissing params labels := by
  induction params with
  | nil => rfl
  | cons p rest ih =>
    rw [firstMissing, firstMissing, h p (List.mem_cons_self _ _),
      ih (fun r hr => h r (List.mem_cons_of_mem _ hr))]

theorem firstMissing_exists {params labels : List String}
    (h : ∃ x ∈ params, x ∉ labels) :
    ∃ y, firstMissing params labels = some y ∧ y ∈ params ∧ y ∉ labels := by
  induction params with
  | nil => simp at h
  | cons p rest ih =>
    by_cases hp : p ∈ labels
    · have hc : labels.contains p = true := (contains_eq_true_iff _ _).mpr hp
      obtain ⟨x, hx, hxl⟩ := h
      rcases List.mem_cons.mp hx with h1 | h1
      · exact absurd (h1 ▸ hp) hxl
      · obtain ⟨y, hy1, hy2, hy3⟩ := ih ⟨x, h1, hxl⟩
        exact ⟨y, by rw [firstMissing, if_pos hc]; exact hy1,
          List.mem_cons_of_mem _ hy2, hy3⟩
    · have hc : ¬ labels.contains p = true :=
        fun hcc => hp ((contains_eq_true_iff _ _).mp hcc)
      exact ⟨p, by rw [firstMissing, if_neg hc], List.mem_cons_self _ _, hp⟩

/-- Fail-fast missing-argument behaviour of the removal loop
(src/interpret/mod.rs:238-247): with distinct required names, the loop
fails with `MissingArgument` at the call-site span, naming the first
required name (in the order the names are iterated) that has no matching
label among the provided arguments. -/
theorem bindArguments_missing (params : List String) (cs : Span)
    (argVals : List (String × Value × Span)) (ivars : List (String × Value))
    (hnd : params.Nodup) (p : String)
    (hfm : firstMissing params (argVals.map Prod.fst) = some p) :
    bindArguments params cs argVals ivars = .error (.err (.missingArgument p cs)) := by
  induction params generalizing argVals ivars with
  | nil => cases hfm
  | cons q rest ih =>
    by_cases hq : q ∈ argVals.map Prod.fst
    · have hq' : ((argVals.map Prod.fst).contains q) = true := (contains_eq_true_iff _ _).mpr hq
      rw [firstMissing, if_pos hq'] at hfm
      obtain ⟨⟨w, argVals'⟩, hrem⟩ :=
        Option.ne_none_iff_exists'.mp
          (fun hnone => ((hmRemove_eq_none_iff _ _).mp hnone) hq)
      rw [bindArguments, hrem]
      have hkeys := hmRemove_keys hrem
      have hfm' : firstMissing rest (argVals'.map Prod.fst) = some p := by
        rw [firstMissing_congr rest (argVals.map Prod.fst) (argVals'.map Prod.fst)]
        · exact hfm
        · intro r hr
          have hrq : r ≠ q := fun h => (List.nodup_cons.mp hnd).1 (h ▸ hr)
          rw [hkeys]
          by_cases hmem : r ∈ argVals.map Prod.fst
          · rw [(contains_eq_true_iff _ _).mpr hmem,
              (contains_eq_true_iff _ _).mpr ((List.mem_erase_of_ne hrq).mpr hmem)]
          · have h3 : r ∉ (argVals.map Prod.fst).erase q :=
              fun hc => hmem (List.mem_of_mem_erase hc)
            have h4 : ((argVals.map Prod.fst).contains r) = false := by
              cases hcc : (argVals.map Prod.fst).contains r with
              | false => rfl
              | true => exact absurd ((contains_eq_true_iff _ _).mp hcc) hmem
            have h5 : (((argVals.map Prod.fst).erase q).contains r) = false := by
              cases hcc : ((argVals.map Prod.fst).erase q).contains r with
              | false => rfl
              | true => exact absurd ((contains_eq_true_iff _ _).mp hcc) h3
            rw [h4, h5]
      exact ih argVals' (hmInsert ivars q w.1) (List.nodup_cons.mp hnd).2 hfm'
    · have hq' : ¬ ((argVals.map Prod.fst).contains q) = true :=
        fun hcc => hq ((contains_eq_true_iff _ _).mp hcc)
      rw [firstMissing, if_neg hq'] at hfm
      obtain rfl : q = p := by injection hfm
      rw [bindArguments, (hmRemove_eq_none_iff _ _).mpr hq]

/-- Unexpected-argument behaviour of the residual loop
(src/interpret/mod.rs:249-251): when every required name was supplied and
an argument remains, the result is `UnexpectedArgument` carrying a
remaining argument's own label and span. -/
theorem bindArguments_unexpected (params : List String) (cs : Span)
    (argVals : List (String × Value × Span)) (ivars : List (String × Value))
    (hnd : params.Nodup) (hknd : (argVals.map Prod.fst).Nodup)
    (hall : ∀ p ∈ params, p ∈ argVals.map Prod.fst)
    (hextra : ∃ e ∈ argVals, e.1 ∉ params) :
    ∃ n v s, bindArguments params cs argVals ivars = .error (.err (.unexpectedArgument n s)) ∧
      (n, v, s) ∈ argVals ∧ n ∉ params := by
  induction params generalizing argVals ivars with
  | nil =>
    obtain ⟨e, he, -⟩ := hextra
    cases argVals with
    | nil => cases he
    | cons x restVals =>
      obtain ⟨n, v, s⟩ := x
      exact ⟨n, v, s, rfl, List.mem_cons_self _ _, by simp⟩
  | cons q rest ih =>
    have hq : q ∈ argVals.map Prod.fst := hall q (List.mem_cons_self _ _)
    obtain ⟨⟨w, argVals'⟩, hrem⟩ :=
      Option.ne_none_iff_exists'.mp
        (fun hnone => ((hmRemove_eq_none_iff _ _).mp hnone) hq)
    rw [bindArguments, hrem]
    have hkeys := hmRemove_keys hrem
    have hknd' : (argVals'.map Prod.fst).Nodup := by
      rw [hkeys]; exact hknd.erase q
    have hqout : q ∉ argVals'.map Prod.fst := by
      rw [hkeys]; exact hknd.not_mem_erase
    have hall' : ∀ r ∈ rest, r ∈ argVals'.map Prod.fst := by
      intro r hr
      have hrq : r ≠ q := fun h => (List.nodup_cons.mp hnd).1 (h ▸ hr)
      rw [hkeys]
      exact (List.mem_erase_of_ne hrq).mpr (hall r (List.mem_cons_of_mem _ hr))
    have hextra' : ∃ e ∈ argVals', e.1 ∉ rest := by
      obtain ⟨e, he, hep⟩ := hextra
      have heq : e.1 ≠ q := fun h => hep (h ▸ List.mem_cons_self _ _)
      exact ⟨e, hmRemove_mem_of_ne hrem e he heq, fun h => hep (List.mem_cons_of_mem _ h)⟩
    obtain ⟨n, v, s, hres, hmem, hout⟩ :=
      ih argVals' (hmInsert ivars q w.1) (List.nodup_cons.mp hnd).2 hknd' hall' hextra'
    refine ⟨n, v, s, hres, hmRemove_mem hrem _ hmem, ?_⟩
    intro hc
    rcases List.mem_cons.mp hc with h1 | h1
    · exact hqout (h1 ▸ List.mem_map.mpr ⟨(n, v, s), hmem, rfl⟩)
    · exact hout h1

/-- Success behaviour of the binding loop: when the required names are a
permutation of the provided labels (all distinct), binding succeeds and the
produced variable table maps every label to its argument's value. -/
theorem bindArguments_success (params : List String) (cs : Span)
    (argVals : List (String × Value × Span)) (ivars : List (String × Value))
    (hknd : (argVals.map Prod.fst).Nodup)
    (hperm : params.Perm (argVals.map Prod.fst)) :
    ∃ tbl, bindArguments params cs argVals ivars = .ok tbl ∧
      (∀ e ∈ argVals, hmGet tbl e.1 = some e.2.1) ∧
      (∀ q, q ∉ argVals.map Prod.fst → hmGet tbl q = hmGet ivars q) := by
  induction params generalizing argVals ivars with
  | nil =>
    have hmap : argVals.map Prod.fst = [] := hperm.symm.eq_nil
    have hnil : argVals = [] := List.map_eq_nil_iff.mp hmap
    subst hnil
    exact ⟨ivars, rfl, by simp, fun q _ => rfl⟩
  | cons q rest ih =>
    have hq : q ∈ argVals.map Prod.fst := hperm.mem_iff.mp (List.mem_cons_self _ _)
    obtain ⟨⟨w, argVals'⟩, hrem⟩ :=
      Option.ne_none_iff_exists'.mp
        (fun hnone => ((hmRemove_eq_none_iff _ _).mp hnone) hq)
    rw [bindArguments, hrem]
    have hkeys := hmRemove_keys hrem
    have hknd' : (argVals'.map Prod.fst).Nodup := by
      rw [hkeys]; exact hknd.erase q
    have hqout : q ∉ argVals'.map Prod.fst := by
      rw [hkeys]; exact hknd.not_mem_erase
    have hperm' : rest.Perm (argVals'.map Prod.fst) := by
      rw [hkeys]
      exact (List.cons_perm_iff_perm_erase.mp hperm).2
    obtain ⟨tbl, hres, hmaps, hrest⟩ := ih argVals' (hmInsert ivars q w.1) hknd' hperm'
    refine ⟨tbl, hres, ?_, ?_⟩
    · intro e he
      by_cases heq : e.1 = q
      · have h1 : hmGet argVals e.1 = some e.2 := hmGet_of_mem_nodup hknd he
        rw [heq] at h1
        rw [hmRemove_get hrem] at h1
        have h2 : e.2 = w := by injection h1 with h1; exact h1.symm
        rw [heq, h2, hrest q hqout, hmGet_insert_self]
      · exact hmaps e (hmRemove_mem_of_ne hrem e he heq)
    · intro r hr
      have hrq : r ≠ q := fun h => hr (h ▸ hq)
      have hr' : r ∉ argVals'.map Prod.fst := by
        rw [hkeys]; exact fun hc => hr (List.mem_of_mem_erase hc)
      rw [hrest r hr', hmGet_insert_ne _ _ _ _ hrq]

theorem firstMissing_some_spec {params labels : List String} {p : String}
    (h : firstMissing params labels = some p) : p ∈ params ∧ p ∉ labels := by
  induction params with
  | nil => cases h
  | cons q rest ih =>
    rw [firstMissing] at h
    by_cases hc : labels.contains q
    · rw [if_pos hc] at h
      obtain ⟨h1, h2⟩ := ih h
      exact ⟨List.mem_cons_of_mem _ h1, h2⟩
    · rw [if_neg hc] at h
      obtain rfl : q = p := by injection h
      exact ⟨List.mem_cons_self _ _,
        fun hm => hc ((contains_eq_true_iff _ _).mpr hm)⟩

/-- Characterisation of the argument-evaluation loop
(src/interpret/mod.rs:232-236): when every argument expression evaluates
and the labels are distinct, the loop succeeds and the produced index holds
the labels in insertion order after the accumulator's, each label carrying
its argument's value and span. -/
theorem evalArgs_ok (fuel : Nat) (interp : Interpreter) (args : List Argument)
    (acc : List (String × Value × Span))
    (hvals : ∀ a ∈ args, ∃ v, evalExpr fuel interp a.expr = .ok v)
    (hdisj : ∀ a ∈ args, a.ident.name ∉ acc.map Prod.fst)
    (hlnd : (args.map (fun a => a.ident.name)).Nodup) :
    ∃ avs, evalArgs fuel interp acc args = .ok avs ∧
      avs.map Prod.fst = acc.map Prod.fst ++ args.map (fun a => a.ident.name) ∧
      (∀ e ∈ acc, e ∈ avs) ∧
      (∀ a ∈ args, ∃ v, evalExpr fuel interp a.expr = .ok v ∧
        (a.ident.name, v, a.span) ∈ avs) := by
  induction args generalizing acc with
  | nil => exact ⟨acc, by rw [evalArgs], by simp, fun e he => he, by simp⟩
  | cons a rest ih =>
    obtain ⟨ident, expr, span⟩ := a
    obtain ⟨v, hv⟩ := hvals _ (List.mem_cons_self _ _)
    simp only [Argument.expr] at hv
    have hfresh : ident.name ∉ acc.map Prod.fst := by
      have := hdisj _ (List.mem_cons_self _ _)
      simpa [Argument.ident] using this
    have hins : hmInsert acc ident.name (v, span) = acc ++ [(ident.name, v, span)] :=
      hmInsert_fresh _ _ _ hfresh
    simp only [List.map_cons, Argument.ident, List.nodup_cons] at hlnd
    have ihres := ih (hmInsert acc ident.name (v, span))
      (fun b hb => hvals b (List.mem_cons_of_mem _ hb))
      (by
        intro b hb
        rw [hins]
        simp only [List.map_append, List.mem_append, List.map_cons, List.map_nil]
        rintro (hc | hc)
        · exact hdisj b (List.mem_cons_of_mem _ hb) hc
        · simp only [List.mem_singleton] at hc
          exact hlnd.1 (hc ▸ List.mem_map.mpr ⟨b, hb, rfl⟩))
      hlnd.2
    obtain ⟨avs, hrun, hkeys, hpers, hcover⟩ := ihres
    refine ⟨avs, ?_, ?_, ?_, ?_⟩
    · rw [evalArgs, hv]
      simpa [bind, Except.bind] using hrun
    · rw [hkeys, hins]
      simp [Argument.ident]
    · intro e he
      exact hpers e (by rw [hins]; exact List.mem_append_left _ he)
    · intro b hb
      rcases List.mem_cons.mp hb with h1 | h1
      · subst h1
        refine ⟨v, hv, ?_⟩
        exact hpers _ (by rw [hins]; simp [Argument.ident, Argument.span])
      · exact hcover b h1

/-- Claim C7 counterexample: the claim says a missing-argument error names
the first missing required name *in declaration order*.  For `New` the
required names are `class.fields.keys()` (src/interpret/mod.rs:217), the
iteration order of a `HashMap` — an arbitrary permutation of the declared
fields, not declaration order.  With fields declared `a`, `b` (conjunct 1
computes the map the collection pass builds; conjunct 2 shows the order
used is a permutation of it, i.e. a possible iteration order), evaluating
`[C new]` reports `b` (conjunct 3), not the declaration-order-first `a`
(conjunct 4). -/
theorem C7_new_missing_argument_not_declaration_order :
    Prep.makeFields [⟨⟨"a", dsp 1⟩, dsp 1⟩, ⟨⟨"b", dsp 2⟩, dsp 2⟩] =
      [("a", ⟨⟨"a", dsp 1⟩⟩), ("b", ⟨⟨"b", dsp 2⟩⟩)] ∧
    (c7Class.fields).Perm
      (Prep.makeFields [⟨⟨"a", dsp 1⟩, dsp 1⟩, ⟨⟨"b", dsp 2⟩, dsp 2⟩]) ∧
    evalExpr 1 c7Interp (.classNew ⟨⟨"C", dsp 5⟩⟩ [] (dsp 6)) =
      .error (.err (.missingArgument "b" (dsp 5))) ∧
    "b" ≠ "a" := by
  refine ⟨by rfl, ?_, ?_, by decide⟩
  · simp only [c7Class, Class.fields, Prep.makeFields]
    exact List.Perm.swap _ _ _
  · simp [evalExpr, evalArgs, bindArguments, lookupClass, hmGet, hmRemove, c7Interp,
      c7Class, Class.fields, dsp, bind, Except.bind, pure, Except.pure]

/-- Claim C7 (amended): in argument binding for both `New` and
`MessageSend`, once the argument expressions have evaluated, a required
name with no matching label fails with missing-argument at the call-site
span, naming the first missing name **in the order the required names are
iterated** — the declared parameter order for `MessageSend`
(src/interpret/mod.rs:268-272), but the field table's arbitrary hash-map
iteration order for `New` (src/interpret/mod.rs:217) — even when
unrecognized labels are present; an unexpected-argument error, carrying a
remaining argument's own label and span, is reported only when every
required name was supplied. -/
theorem C7_argument_binding_first_error_wins (params : List String) (cs : Span)
    (argVals : List (String × Value × Span)) (ivars : List (String × Value))
    (hnd : params.Nodup) (hknd : (argVals.map Prod.fst).Nodup) :
    (∀ p, firstMissing params (argVals.map Prod.fst) = some p →
      p ∈ params ∧ p ∉ argVals.map Prod.fst ∧
      bindArguments params cs argVals ivars = .error (.err (.missingArgument p cs))) ∧
    ((∀ p ∈ params, p ∈ argVals.map Prod.fst) → (∃ e ∈ argVals, e.1 ∉ params) →
      ∃ n v s, bindArguments params cs argVals ivars =
        .error (.err (.unexpectedArgument n s)) ∧ (n, v, s) ∈ argVals ∧ n ∉ params) := by
  constructor
  · intro p hfm
    obtain ⟨h1, h2⟩ := firstMissing_some_spec hfm
    exact ⟨h1, h2, bindArguments_missing params cs argVals ivars hnd p hfm⟩
  · intro hall hextra
    exact bindArguments_unexpected params cs argVals ivars hnd hknd hall hextra

/-- Witness for the amended claim C7: binding required names `x`, `y`
against the single provided label `y` fails with missing-argument naming
`x` at the call site. -/
theorem C7_argument_binding_first_error_wins_witness :
    bindArguments ["x", "y"] (dsp 0) [("y", Value.nil, dsp 1)] [] =
      .error (.err (.missingArgument "x" (dsp 0))) :=
  ((C7_argument_binding_first_error_wins ["x", "y"] (dsp 0)
      [("y", Value.nil, dsp 1)] [] (by decide) (by decide)).1 "x" (by rfl)).2.2

/-- Claim C8: evaluating `[C new ...]` for a defined class C
(src/interpret/mod.rs:211-223).  With every argument expression evaluating
and all labels distinct: supplying exactly the declared field set, in any
order, yields a fresh `Instance` of C whose variable table maps each field
name to its argument's value; supplying a strict subset of the fields fails
with missing-argument (at the class-name call site); supplying every field
plus an unrecognized label fails with unexpected-argument. -/
theorem C8_new_binds_exact_field_set (fuel : Nat) (interp : Interpreter)
    (className : ClassName) (args : List Argument) (span : Span) (cls : Class)
    (hcls : hmGet interp.classes className.ident.name = some cls)
    (hvals : ∀ a ∈ args, ∃ v, evalExpr fuel interp a.expr = .ok v)
    (hlnd : (args.map (fun a => a.ident.name)).Nodup)
    (hfnd : (cls.fields.map Prod.fst).Nodup) :
    ((args.map (fun a => a.ident.name)).Perm (cls.fields.map Prod.fst) →
      ∃ ivars, evalExpr fuel interp (.classNew className args span) =
          .ok (.instance_ (.mk cls ivars)) ∧
        ∀ a ∈ args, ∃ v, evalExpr fuel interp a.expr = .ok v ∧
          hmGet ivars a.ident.name = some v) ∧
    ((∀ l ∈ args.map (fun a => a.ident.name), l ∈ cls.fields.map Prod.fst) →
      (∃ fn ∈ cls.fields.map Prod.fst, fn ∉ args.map (fun a => a.ident.name)) →
      ∃ n, n ∈ cls.fields.map Prod.fst ∧ n ∉ args.map (fun a => a.ident.name) ∧
        evalExpr fuel interp (.classNew className args span) =
          .error (.err (.missingArgument n className.ident.span))) ∧
    ((∀ fn ∈ cls.fields.map Prod.fst, fn ∈ args.map (fun a => a.ident.name)) →
      (∃ l ∈ args.map (fun a => a.ident.name), l ∉ cls.fields.map Prod.fst) →
      ∃ n s, evalExpr fuel interp (.classNew className args span) =
        .error (.err (.unexpectedArgument n s))) := by
  obtain ⟨avs, hrun, hkeys, -, hcover⟩ :=
    evalArgs_ok fuel interp args [] hvals (by simp) hlnd
  simp only [List.map_nil, List.nil_append] at hkeys
  have hknd : (avs.map Prod.fst).Nodup := by rw [hkeys]; exact hlnd
  have hstep : ∀ r : Except Failure (List (String × Value)),
      bindArguments (cls.fields.map Prod.fst) className.ident.span avs [] = r →
      evalExpr fuel interp (.classNew className args span) =
        r.map (fun ivars => .instance_ (.mk cls ivars)) := by
    intro r hr
    rw [evalExpr]
    rw [lookupClass, hcls]
    simp only [bind, Except.bind, hrun, hr]
    cases r <;> simp [Except.map, pure, Except.pure]
  refine ⟨?_, ?_, ?_⟩
  · intro hperm
    obtain ⟨tbl, hbind, hmaps, -⟩ :=
      bindArguments_success (cls.fields.map Prod.fst) className.ident.span avs []
        hknd (by rw [hkeys]; exact hperm.symm)
    refine ⟨tbl, by simpa [Except.map] using hstep _ hbind, ?_⟩
    intro a ha
    obtain ⟨v, hv, hmem⟩ := hcover a ha
    exact ⟨v, hv, hmaps _ hmem⟩
  · intro hall hmissing
    obtain ⟨y, hy, hy1, hy2⟩ := firstMissing_exists
      (by
        obtain ⟨fn, h1, h2⟩ := hmissing
        exact ⟨fn, h1, fun hc => h2 (by rwa [hkeys] at hc)⟩ :
        ∃ x ∈ cls.fields.map Prod.fst, x ∉ avs.map Prod.fst)
    have hbind := bindArguments_missing (cls.fields.map Prod.fst)
      className.ident.span avs [] hfnd y hy
    exact ⟨y, hy1, fun hc => hy2 (by rwa [hkeys]), by
      simpa [Except.map] using hstep _ hbind⟩
  · intro hall hextra
    obtain ⟨l, hl1, hl2⟩ := hextra
    have hl1' : l ∈ avs.map Prod.fst := by rwa [hkeys]
    obtain ⟨e, he, heq⟩ := List.mem_map.mp hl1'
    obtain ⟨n, v, s, hbind, -, -⟩ :=
      bindArguments_unexpected (cls.fields.map Prod.fst) className.ident.span avs []
        hfnd hknd (fun p hp => by rw [hkeys]; exact hall p hp)
        ⟨e, he, heq ▸ hl2⟩
    exact ⟨n, s, by simpa [Except.map] using hstep _ hbind⟩

/-- Witness for claim C8: `[C new b: 2 a: 1]` with fields declared `a`, `b`
(field-table iteration order `b`, `a`) succeeds and binds both instance
variables to their argument values. -/
theorem C8_new_binds_exact_field_set_witness :
    ∃ ivars, evalExpr 1 c7Interp
        (.classNew ⟨⟨"C", dsp 5⟩⟩
          [.mk ⟨"b", dsp 7⟩ (.number 2 (dsp 8)) (dsp 9),
           .mk ⟨"a", dsp 10⟩ (.number 1 (dsp 11)) (dsp 12)] (dsp 6)) =
        .ok (.instance_ (.mk c7Class ivars)) ∧
      ∀ a ∈ [Argument.mk ⟨"b", dsp 7⟩ (.number 2 (dsp 8)) (dsp 9),
             Argument.mk ⟨"a", dsp 10⟩ (.number 1 (dsp 11)) (dsp 12)],
        ∃ v, evalExpr 1 c7Interp a.expr = .ok v ∧ hmGet ivars a.ident.name = some v :=
  (C8_new_binds_exact_field_set 1 c7Interp ⟨⟨"C", dsp 5⟩⟩
      [.mk ⟨"b", dsp 7⟩ (.number 2 (dsp 8)) (dsp 9),
       .mk ⟨"a", dsp 10⟩ (.number 1 (dsp 11)) (dsp 12)] (dsp 6) c7Class
      (by simp [c7Interp, hmGet])
      (by
        intro a ha
        rcases List.mem_cons.mp ha with h1 | h1
        · exact ⟨.number 2, by rw [h1]; simp [Argument.expr, evalExpr]⟩
        · rcases List.mem_cons.mp h1 with h2 | h2
          · exact ⟨.number 1, by rw [h2]; simp [Argument.expr, evalExpr]⟩
          · cases h2)
      (by simp [Argument.ident])
      (by simp [c7Class, Class.fields])).1
    (by simp [Argument.ident, c7Class, Class.fields])

/-- Claim C9: if any non-`Object` class's declared superclass name is
absent from the collected table, linking fails with class-not-defined — and
it fails already in the lookup loop (`buildAcc`, src/prep/mod.rs:82-102),
which touches no descriptor; `patchAcc` (the only code that attaches
superclass handles) runs only after every lookup has succeeded, so no
descriptor is ever partially linked.  The iteration order `tableIter` is
arbitrary, so the failure is independent of the order in which classes were
declared or are iterated. -/
theorem C9_missing_superclass_fails_before_any_patch
    (store : List Prep.PrepClass) (table tableIter : List (String × Nat))
    (hwf : ∀ p ∈ tableIter, ∃ c, store.get? p.2 = some c)
    (hbad : ∃ p ∈ tableIter, p.1 ≠ "Object" ∧ ∃ c, store.get? p.2 = some c ∧
      hmGet table c.superClassName.name = none) :
    ∃ cls sp, Prep.buildAcc store table tableIter =
        .error (.err (.classNotDefined cls sp)) ∧
      Prep.setupSuperClasses store table tableIter =
        .error (.err (.classNotDefined cls sp)) := by
  suffices h : ∃ cls sp, Prep.buildAcc store table tableIter =
      .error (.err (.classNotDefined cls sp)) by
    obtain ⟨cls, sp, hb⟩ := h
    refine ⟨cls, sp, hb, ?_⟩
    rw [Prep.setupSuperClasses]
    simp [hb, bind, Except.bind]
  induction tableIter with
  | nil => simp at hbad
  | cons p rest ih =>
    obtain ⟨name, id⟩ := p
    by_cases hobj : name = "Object"
    · subst hobj
      rw [Prep.buildAcc]
      rw [if_pos rfl]
      apply ih
      · exact fun q hq => hwf q (List.mem_cons_of_mem _ hq)
      · obtain ⟨q, hq, hq1, hq2⟩ := hbad
        rcases List.mem_cons.mp hq with h1 | h1
        · exact absurd (congrArg Prod.fst h1) (by simpa using hq1)
        · exact ⟨q, h1, hq1, hq2⟩
    · rw [Prep.buildAcc, if_neg hobj]
      obtain ⟨c, hc⟩ := hwf _ (List.mem_cons_self _ _)
      have hc' : store.get? id = some c := hc
      cases hsup : hmGet table c.superClassName.name with
      | none =>
        refine ⟨c.superClassName.name, c.span, ?_⟩
        simp only [hc', hsup]
      | some superId =>
        obtain ⟨cls, sp, hrest⟩ := by
          apply ih
          · exact fun q hq => hwf q (List.mem_cons_of_mem _ hq)
          · obtain ⟨q, hq, hq1, cq, hcq1, hcq2⟩ := hbad
            rcases List.mem_cons.mp hq with h1 | h1
            · exfalso
              have hid : q.2 = id := congrArg Prod.snd h1
              rw [hid, hc'] at hcq1
              injection hcq1 with hcq1
              rw [hcq1] at hsup
              rw [hcq2] at hsup
              cases hsup
            · exact ⟨q, h1, hq1, cq, hcq1, hcq2⟩
        refine ⟨cls, sp, ?_⟩
        simp only [hc', hsup, hrest, bind, Except.bind]

/-- Witness for claim C9: `Object` plus a class `B` whose superclass
`Missing` is not in the table, iterated in the non-insertion order, fails
with class-not-defined and no patch pass runs. -/
theorem C9_missing_superclass_fails_before_any_patch_witness :
    ∃ cls sp,
      Prep.buildAcc
        [Prep.objectClass,
         { name := ⟨"B", dsp 1⟩, superClassName := ⟨"Missing", dsp 2⟩,
           superClass := none, fields := [], methods := [], span := dsp 0 }]
        [("Object", 0), ("B", 1)] [("B", 1), ("Object", 0)] =
        .error (.err (.classNotDefined cls sp)) ∧
      Prep.setupSuperClasses
        [Prep.objectClass,
         { name := ⟨"B", dsp 1⟩, superClassName := ⟨"Missing", dsp 2⟩,
           superClass := none, fields := [], methods := [], span := dsp 0 }]
        [("Object", 0), ("B", 1)] [("B", 1), ("Object", 0)] =
        .error (.err (.classNotDefined cls sp)) :=
  C9_missing_superclass_fails_before_any_patch _ _ _
    (by
      intro p hp
      rcases List.mem_cons.mp hp with h1 | h1
      · exact ⟨_, by rw [h1]; rfl⟩
      · rcases List.mem_cons.mp h1 with h2 | h2
        · exact ⟨_, by rw [h2]; rfl⟩
        · cases h2)
    ⟨("B", 1), List.mem_cons_self _ _, by decide,
      { name := ⟨"B", dsp 1⟩, superClassName := ⟨"Missing", dsp 2⟩,
        superClass := none, fields := [], methods := [], span := dsp 0 }, rfl, rfl⟩

/-- Per-statement frame effects of the visitor
(src/interpret/mod.rs:64-99): no statement changes the class table or the
self value; only `LetLocal` changes the locals and only `Return` changes
the pending-return flag. -/
theorem visitStmt_preserves (fuel : Nat) (interp : Interpreter) (s : Stmt)
    (interp' : Interpreter) (h : visitStmt fuel interp s = .ok interp') :
    interp'.classes = interp.classes ∧ interp'.self_ = interp.self_ ∧
    ((∀ i b sp, s ≠ .letLocal i b sp) → interp'.locals = interp.locals) ∧
    ((∀ e sp, s ≠ .ret e sp) → interp'.returnValue = interp.returnValue) := by
  cases s with
  | letLocal ident body sp =>
    rw [visitStmt] at h
    by_cases hrv : interp.returnValue.isSome
    · rw [if_pos hrv] at h
      injection h with h
      subst h
      exact ⟨rfl, rfl, fun _ => rfl, fun _ => rfl⟩
    · rw [if_neg hrv] at h
      cases hev : evalExpr fuel interp body with
      | ok v =>
        rw [hev] at h
        simp only [bind, Except.bind] at h
        injection h with h
        subst h
        exact ⟨rfl, rfl, fun hk => absurd rfl (hk ident body sp), fun _ => rfl⟩
      | error e =>
        rw [hev] at h
        simp only [bind, Except.bind] at h
        cases h
  | letIVar ident body sp =>
    rw [visitStmt] at h
    by_cases hrv : interp.returnValue.isSome
    · rw [if_pos hrv] at h
      injection h with h
      subst h
      exact ⟨rfl, rfl, fun _ => rfl, fun _ => rfl⟩
    · rw [if_neg hrv] at h
      cases h
  | messageSendStmt m sp =>
    rw [visitStmt] at h
    by_cases hrv : interp.returnValue.isSome
    · rw [if_pos hrv] at h
      injection h with h
      subst h
      exact ⟨rfl, rfl, fun _ => rfl, fun _ => rfl⟩
    · rw [if_neg hrv] at h
      cases hev : evalMessageSend fuel interp m with
      | ok v =>
        rw [hev] at h
        simp only [bind, Except.bind] at h
        injection h with h
        subst h
        exact ⟨rfl, rfl, fun _ => rfl, fun _ => rfl⟩
      | error e =>
        rw [hev] at h
        simp only [bind, Except.bind] at h
        cases h
  | ret expr sp =>
    rw [visitStmt] at h
    cases hev : evalExpr fuel interp expr with
    | ok v =>
      rw [hev] at h
      simp only [bind, Except.bind] at h
      injection h with h
      subst h
      exact ⟨rfl, rfl, fun _ => rfl, fun hk => absurd rfl (hk expr sp)⟩
    | error e =>
      rw [hev] at h
      simp only [bind, Except.bind] at h
      cases h
  | defineMethod cn mn blk sp =>
    rw [visitStmt] at h
    injection h with h
    subst h
    exact ⟨rfl, rfl, fun _ => rfl, fun _ => rfl⟩
  | defineClass n sc flds sp =>
    rw [visitStmt] at h
    injection h with h
    subst h
    exact ⟨rfl, rfl, fun _ => rfl, fun _ => rfl⟩

/-- Statement-sequence execution never changes the class table or the self
value of the frame it runs in. -/
theorem execStmts_preserves (fuel : Nat) (stmts : List Stmt) :
    ∀ interp interp' : Interpreter, execStmts fuel interp stmts = .ok interp' →
      interp'.classes = interp.classes ∧ interp'.self_ = interp.self_ := by
  induction stmts with
  | nil =>
    intro interp interp' h
    rw [execStmts] at h
    injection h with h
    subst h
    exact ⟨rfl, rfl⟩
  | cons s rest ih =>
    intro interp interp' h
    rw [execStmts] at h
    cases hv : visitStmt fuel interp s with
    | ok mid =>
      rw [hv] at h
      simp only [bind, Except.bind] at h
      obtain ⟨h1, h2, -, -⟩ := visitStmt_preserves fuel interp s mid hv
      obtain ⟨h3, h4⟩ := ih mid interp' h
      exact ⟨h3.trans h1, h4.trans h2⟩
    | error e =>
      rw [hv] at h
      simp only [bind, Except.bind] at h
      cases h

/-- Claim C10: expression evaluation cannot mutate the current frame
(`Eval::eval` takes `&Interpreter`, src/interpret/mod.rs:130-132, modelled
by `evalExpr` returning only a value), so a `MessageSendStmt` — which runs
a whole method — returns the frame unchanged (conjunct 1) and running any
statement sequence preserves the frame's class table and self (conjunct
2); a method call builds a fresh frame whose locals are exactly the bound
parameters, whose self is the receiver, and whose pending return starts
unset (conjunct 3, `copy_for_method_call`), and the send executes the body
in that frame, never the caller's (conjunct 5); only `LetLocal` changes
the current frame's locals and only `Return` its pending-return flag
(conjunct 4). -/
theorem C10_evaluation_preserves_current_frame :
    (∀ fuel interp m sp interp',
      visitStmt fuel interp (.messageSendStmt m sp) = .ok interp' → interp' = interp) ∧
    (∀ fuel interp stmts interp', execStmts fuel interp stmts = .ok interp' →
      interp'.classes = interp.classes ∧ interp'.self_ = interp.self_) ∧
    (∀ interp newSelf locals, copyForMethodCall interp newSelf locals =
      { classes := interp.classes, locals := locals, self_ := some newSelf,
        returnValue := none }) ∧
    (∀ fuel interp s interp', visitStmt fuel interp s = .ok interp' →
      ((∀ i b sp, s ≠ .letLocal i b sp) → interp'.locals = interp.locals) ∧
      ((∀ e sp, s ≠ .ret e sp) → interp'.returnValue = interp.returnValue)) ∧
    (∀ fuel interp receiver msg args span inst method avs locals,
      evalExpr (fuel + 1) interp receiver = .ok (.instance_ inst) →
      Class.getMethodNamed inst.cls msg.name span = .ok method →
      evalArgs (fuel + 1) interp [] args = .ok avs →
      bindArguments (method.parameters.map (fun p => p.ident.name)) span avs [] =
        .ok locals →
      evalMessageSend (fuel + 1) interp (.mk receiver msg args span) =
        Except.bind
          (execStmts fuel (copyForMethodCall interp (.instance_ inst) locals)
            method.body)
          (fun mi => .ok (mi.returnValue.getD Value.nil))) := by
  refine ⟨?_, ?_, ?_, ?_, ?_⟩
  · intro fuel interp m sp interp' h
    rw [visitStmt] at h
    by_cases hrv : interp.returnValue.isSome
    · rw [if_pos hrv] at h
      injection h with h
      exact h.symm
    · rw [if_neg hrv] at h
      cases hev : evalMessageSend fuel interp m with
      | ok v =>
        rw [hev] at h
        simp only [bind, Except.bind] at h
        injection h with h
        exact h.symm
      | error e =>
        rw [hev] at h
        simp only [bind, Except.bind] at h
        cases h
  · exact fun fuel interp stmts interp' h => execStmts_preserves fuel stmts interp interp' h
  · intro interp newSelf locals
    rfl
  · intro fuel interp s interp' h
    obtain ⟨-, -, h3, h4⟩ := visitStmt_preserves fuel interp s interp' h
    exact ⟨h3, h4⟩
  · intro fuel interp receiver msg args span inst method avs locals hrecv hmeth hargs hbind
    rw [evalMessageSend]
    simp only [hrecv, hmeth, hargs, hbind, bind, Except.bind]

/-- Witness for claim C10: a `MessageSendStmt` executed in a frame with the
pending return set returns the frame unchanged, and running it as a
sequence preserves the class table and self. -/
theorem C10_evaluation_preserves_current_frame_witness :
    execStmts 1 c10Interp [c10Stmt] = .ok c10Interp ∧
    c10Interp.classes = c10Interp.classes ∧ c10Interp.self_ = c10Interp.self_ := by
  have h : execStmts 1 c10Interp [c10Stmt] = .ok c10Interp := by
    simp [execStmts, visitStmt, c10Interp, c10Stmt, bind, Except.bind]
  exact ⟨h, (C10_evaluation_preserves_current_frame.2.1 1 _ _ _ h).1 ▸ rfl,
    (C10_evaluation_preserves_current_frame.2.1 1 _ _ _ h).2 ▸ rfl⟩

end Oops
